import Mathlib

/-!
Verification development for the conduct front-end toolkit: token model,
recursive-descent parser, semantic validator and binary AST codec.

The repository ships only the test driver (src/conduct-tk/src/lib.rs); the
implementation modules (tk, parser, ast, validate, bin, err) are not part of
the sources provided, so every definition below is modelled from the
specification (spec.md) and from the behaviour the test driver pins down.
-/

namespace Conduct

/-- A contiguous byte-offset range (start, end-exclusive) into a source text. -/
abbrev Span := Nat × Nat

/-- Modelled from the spec: the token alphabet of the lexical grammar
(spec §3 Token, §4.1): keywords, literals, operators and punctuation.
Comment and whitespace trivia are discarded by the scanner and have no
token. A string-literal token carries its segments: `(false, text)` is
processed literal text, `(true, source)` is the raw source between the
structural `${...}` interpolation markers, which the parser later
re-enters as a nested expression (spec §4.1). The words `as` and `in`
are not in the spec's keyword list and are produced as identifiers,
matched contextually by the parser. -/
inductive Token where
  | kwImport | kwLet | kwConst | kwNative | kwFn | kwIf | kwElse | kwFor
  | kwWhile | kwBreak | kwContinue | kwReturn | kwXReturn | kwThrow
  | kwTry | kwCatch | kwModule | kwExport | kwType
  | intLit (n : Nat)
  | strLit (parts : List (Bool × String))
  | ident (s : String)
  | boolLit (b : Bool)
  | nilLit
  | plus | minus | star | slash | dstar
  | eqeq | neq | ltT | gtT | leT | geT
  | amp | pipe | bang | bangbang
  | question | colon
  | assignT | plusAssign | minusAssign
  | dot | comma | dotdot | semicolon
  | lparen | rparen | lbrace | rbrace | lbracket | rbracket
  | fatArrow
  deriving Repr

/-- A distinct numeric tag per token constructor (payloads ignored). -/
def Token.tag : Token → Nat
  | .kwImport => 0 | .kwLet => 1 | .kwConst => 2 | .kwNative => 3
  | .kwFn => 4 | .kwIf => 5 | .kwElse => 6 | .kwFor => 7
  | .kwWhile => 8 | .kwBreak => 9 | .kwContinue => 10 | .kwReturn => 11
  | .kwXReturn => 12 | .kwThrow => 13 | .kwTry => 14 | .kwCatch => 15
  | .kwModule => 16 | .kwExport => 17 | .kwType => 18
  | .intLit _ => 19 | .strLit _ => 20 | .ident _ => 21 | .boolLit _ => 22
  | .nilLit => 23
  | .plus => 24 | .minus => 25 | .star => 26 | .slash => 27 | .dstar => 28
  | .eqeq => 29 | .neq => 30 | .ltT => 31 | .gtT => 32 | .leT => 33
  | .geT => 34 | .amp => 35 | .pipe => 36 | .bang => 37 | .bangbang => 38
  | .question => 39 | .colon => 40 | .assignT => 41 | .plusAssign => 42
  | .minusAssign => 43 | .dot => 44 | .comma => 45 | .dotdot => 46
  | .semicolon => 47 | .lparen => 48 | .rparen => 49 | .lbrace => 50
  | .rbrace => 51 | .lbracket => 52 | .rbracket => 53 | .fatArrow => 54

/-- Token equality: payload-carrying constructors compare payloads, all
others compare by tag. -/
def tokEq : Token → Token → Bool
  | .intLit a, .intLit b => a == b
  | .strLit a, .strLit b => a == b
  | .ident a, .ident b => a == b
  | .boolLit a, .boolLit b => a == b
  | a, b => a.tag == b.tag

/-- Error classes of the front end (spec §7 error taxonomy). -/
inductive ErrClass where
  | unexpectedEof
  | unexpectedToken
  | nativeLetE
  | catchOrderE
  | lexE
  | fuelE
  deriving Repr, DecidableEq

/-- A value-level parse/lex failure: its class and the offending span. -/
structure PError where
  cls : ErrClass
  span : Span
  deriving Repr, DecidableEq

/-- Characters that may start an identifier (letters, `_`, `$`). -/
def isIdentStart (c : Char) : Bool :=
  c.isAlpha || c = '_' || c = '$'

/-- Characters that may continue an identifier. -/
def isIdentCont (c : Char) : Bool :=
  c.isAlphanum || c = '_' || c = '$'

/-- Keyword lookup over the scanned identifier text (spec §3 keyword list,
plus the literal words true/false/nil). -/
def keywordOf (s : String) : Token :=
  if s = "import" then .kwImport
  else if s = "let" then .kwLet
  else if s = "const" then .kwConst
  else if s = "native" then .kwNative
  else if s = "fn" then .kwFn
  else if s = "if" then .kwIf
  else if s = "else" then .kwElse
  else if s = "for" then .kwFor
  else if s = "while" then .kwWhile
  else if s = "break" then .kwBreak
  else if s = "continue" then .kwContinue
  else if s = "return" then .kwReturn
  else if s = "xreturn" then .kwXReturn
  else if s = "throw" then .kwThrow
  else if s = "try" then .kwTry
  else if s = "catch" then .kwCatch
  else if s = "module" then .kwModule
  else if s = "export" then .kwExport
  else if s = "type" then .kwType
  else if s = "true" then .boolLit true
  else if s = "false" then .boolLit false
  else if s = "nil" then .nilLit
  else .ident s

/-- Scan the continuation of an identifier: accumulated text, rest of the
input and the number of characters consumed. -/
def takeIdent : List Char → String → Nat → String × List Char × Nat
  | [], acc, n => (acc, [], n)
  | c :: cs, acc, n =>
    if isIdentCont c then takeIdent cs (acc.push c) (n + 1)
    else (acc, c :: cs, n)

/-- Digit value of a character under a radix, when the character is a digit
of that radix. -/
def digitVal (radix : Nat) (c : Char) : Option Nat :=
  let v : Option Nat :=
    if c.isDigit then some (c.toNat - 48)
    else if 'a' ≤ c && c ≤ 'f' then some (c.toNat - 87)
    else if 'A' ≤ c && c ≤ 'F' then some (c.toNat - 55)
    else none
  match v with
  | some d => if d < radix then some d else none
  | none => none

/-- Scan digits of the given radix, accumulating the numeric value
(spec §4.1: no overflow checking at this layer). -/
def takeDigits (radix : Nat) : List Char → Nat → Nat → Nat × List Char × Nat
  | [], acc, n => (acc, [], n)
  | c :: cs, acc, n =>
    match digitVal radix c with
    | some d => takeDigits radix cs (acc * radix + d) (n + 1)
    | none => (acc, c :: cs, n)

/-- Scan exactly four hexadecimal digits of a unicode escape. -/
def takeHex4 : List Char → Option (Nat × List Char)
  | c1 :: c2 :: c3 :: c4 :: cs => do
    let d1 ← digitVal 16 c1
    let d2 ← digitVal 16 c2
    let d3 ← digitVal 16 c3
    let d4 ← digitVal 16 c4
    some (((d1 * 16 + d2) * 16 + d3) * 16 + d4, cs)
  | _ => none

/-- Collect the raw source between `${` and its matching `}` of an
interpolation marker, tracking nested braces: returns the raw code text,
the rest of the input, and characters consumed (closing `}` included).
The segment is not evaluated by the scanner (spec §4.1). -/
def scanInterp : List Char → Nat → String → Nat → Option (String × List Char × Nat)
  | [], _, _, _ => none
  | c :: cs, depth, acc, n =>
    if c = '}' then
      if depth = 0 then some (acc, cs, n + 1)
      else scanInterp cs (depth - 1) (acc.push c) (n + 1)
    else if c = '{' then scanInterp cs (depth + 1) (acc.push c) (n + 1)
    else scanInterp cs depth (acc.push c) (n + 1)

/-- Flush a pending literal-text accumulator onto the segment list. -/
def flushPart (parts : List (Bool × String)) (acc : String) : List (Bool × String) :=
  if acc = "" then parts else parts ++ [(false, acc)]

/-- Scan a string literal body up to the closing quote `q`, processing the
escapes recognised by the scanner and recognising `${...}` interpolation
boundaries as structural markers (spec §4.1): the result is the segment
list (literal text / raw interpolation source), the rest of the input,
and characters consumed (closing quote included). Fuel is structural;
every step consumes at least one character. -/
def scanString (q : Char) :
    Nat → List Char → List (Bool × String) → String → Nat →
      Option (List (Bool × String) × List Char × Nat)
  | 0, _, _, _, _ => none
  | _ + 1, [], _, _, _ => none
  | fuel + 1, c :: cs, parts, acc, n =>
    if c = q then some (flushPart parts acc, cs, n + 1)
    else if c = '\\' then
      match cs with
      | [] => none
      | e :: cs2 =>
        if e = 'n' then scanString q fuel cs2 parts (acc.push '\n') (n + 2)
        else if e = 't' then scanString q fuel cs2 parts (acc.push '\t') (n + 2)
        else if e = 'r' then scanString q fuel cs2 parts (acc.push '\r') (n + 2)
        else if e = '\\' then scanString q fuel cs2 parts (acc.push '\\') (n + 2)
        else if e = '"' then scanString q fuel cs2 parts (acc.push '"') (n + 2)
        else if e = '\'' then scanString q fuel cs2 parts (acc.push '\'') (n + 2)
        else if e = 'u' then
          match takeHex4 cs2 with
          | some (v, cs3) => scanString q fuel cs3 parts (acc.push (Char.ofNat v)) (n + 6)
          | none => none
        else none
    else if c = '$' then
      match cs with
      | '{' :: cs2 =>
        match scanInterp cs2 0 "" 2 with
        | some (code, cs3, len) =>
          scanString q fuel cs3 (flushPart parts acc ++ [(true, code)]) "" (n + len)
        | none => none
      | _ => scanString q fuel cs parts (acc.push c) (n + 1)
    else scanString q fuel cs parts (acc.push c) (n + 1)
termination_by structural fuel => fuel

/-- The plain text of a string-literal token holding no interpolation
segment (as required in name positions such as import paths, object keys
and for-loop bindings). -/
def plainOf : List (Bool × String) → Option String
  | [] => some ""
  | (false, s) :: rest =>
    (match rest with
     | [] => some s
     | _ =>
       match plainOf rest with
       | some t => some (s ++ t)
       | none => none)
  | (true, _) :: _ => none

/-- Skip a line comment: rest of input and characters consumed. -/
def skipLine : List Char → Nat → List Char × Nat
  | [], n => ([], n)
  | c :: cs, n => if c = '\n' then (cs, n + 1) else skipLine cs (n + 1)

/-- Skip a block comment up to `*/` (or the end of input). -/
def skipBlock : List Char → Nat → List Char × Nat
  | [], n => ([], n)
  | '*' :: '/' :: cs, n => (cs, n + 2)
  | _ :: cs, n => skipBlock cs (n + 1)

/-- Modelled from the spec: the scanner loop (spec §4.1). Greedy
longest-match on operators; radix prefixes 0x/0b/0o for numbers; strings
delimited by single or double quotes; `//` and `/* */` comments and
whitespace discarded; an unrecognized character is the one scanner-level
error. Fuel is structural; every step consumes at least one character, so
`input.length + 1` fuel always suffices. -/
def tokenizeAux : Nat → List Char → Nat → Except PError (List (Token × Span))
  | 0, _, pos => .error ⟨.fuelE, (pos, pos)⟩
  | _ + 1, [], _ => .ok []
  | fuel + 1, input@(c :: cs), pos =>
    let emit : Token → Nat → List Char → Except PError (List (Token × Span)) :=
      fun tok len rest =>
        match tokenizeAux fuel rest (pos + len) with
        | .error e => .error e
        | .ok toks => .ok ((tok, (pos, pos + len)) :: toks)
    if c = ' ' || c = '\n' || c = '\t' || c = '\r' then
      tokenizeAux fuel cs (pos + 1)
    else
      match input with
      | '/' :: '/' :: rest =>
        let (rest2, len) := skipLine rest 2
        tokenizeAux fuel rest2 (pos + len)
      | '/' :: '*' :: rest =>
        let (rest2, len) := skipBlock rest 2
        tokenizeAux fuel rest2 (pos + len)
      | '*' :: '*' :: rest => emit .dstar 2 rest
      | '!' :: '!' :: rest => emit .bangbang 2 rest
      | '=' :: '=' :: rest => emit .eqeq 2 rest
      | '!' :: '=' :: rest => emit .neq 2 rest
      | '<' :: '=' :: rest => emit .leT 2 rest
      | '>' :: '=' :: rest => emit .geT 2 rest
      | '+' :: '=' :: rest => emit .plusAssign 2 rest
      | '-' :: '=' :: rest => emit .minusAssign 2 rest
      | '=' :: '>' :: rest => emit .fatArrow 2 rest
      | '.' :: '.' :: rest => emit .dotdot 2 rest
      | '+' :: rest => emit .plus 1 rest
      | '-' :: rest => emit .minus 1 rest
      | '*' :: rest => emit .star 1 rest
      | '/' :: rest => emit .slash 1 rest
      | '=' :: rest => emit .assignT 1 rest
      | '<' :: rest => emit .ltT 1 rest
      | '>' :: rest => emit .gtT 1 rest
      | '&' :: rest => emit .amp 1 rest
      | '|' :: rest => emit .pipe 1 rest
      | '!' :: rest => emit .bang 1 rest
      | '?' :: rest => emit .question 1 rest
      | ':' :: rest => emit .colon 1 rest
      | '.' :: rest => emit .dot 1 rest
      | ',' :: rest => emit .comma 1 rest
      | ';' :: rest => emit .semicolon 1 rest
      | '(' :: rest => emit .lparen 1 rest
      | ')' :: rest => emit .rparen 1 rest
      | '{' :: rest => emit .lbrace 1 rest
      | '}' :: rest => emit .rbrace 1 rest
      | '[' :: rest => emit .lbracket 1 rest
      | ']' :: rest => emit .rbracket 1 rest
      | '0' :: 'x' :: rest =>
        let (v, rest2, len) := takeDigits 16 rest 0 2
        emit (.intLit v) len rest2
      | '0' :: 'b' :: rest =>
        let (v, rest2, len) := takeDigits 2 rest 0 2
        emit (.intLit v) len rest2
      | '0' :: 'o' :: rest =>
        let (v, rest2, len) := takeDigits 8 rest 0 2
        emit (.intLit v) len rest2
      | _ =>
        if c.isDigit then
          let (v, rest2, len) := takeDigits 10 input 0 0
          emit (.intLit v) len rest2
        else if isIdentStart c then
          let (s, rest2, len) := takeIdent input "" 0
          emit (keywordOf s) len rest2
        else if c = '"' || c = '\'' then
          match scanString c (cs.length + 1) cs [] "" 1 with
          | some (parts, rest2, len) => emit (.strLit parts) len rest2
          | none => .error ⟨.lexE, (pos, pos + 1)⟩
        else .error ⟨.lexE, (pos, pos + 1)⟩
termination_by structural fuel => fuel

/-- Modelled from the spec: `tokenize(text) -> finite token sequence`
(spec §4.1, §6), each token carrying its byte-offset span. -/
def tokenize (s : String) : Except PError (List (Token × Span)) :=
  tokenizeAux (s.length + 1) s.data 0

/-- Unary operator kinds (spec §4.3: `!`, `-`). -/
inductive UnOp where
  | lnot | neg
  deriving Repr, DecidableEq

/-- Binary operator kinds (spec §4.3: arithmetic, bitwise/logical,
comparison; `rng` is the range operator `..` of the token alphabet,
used for iterable ranges such as `0..10`). -/
inductive BinOp where
  | add | sub | mul | div | pow
  | band | bor
  | eq | ne | lt | gt | le | ge
  | rng
  deriving Repr, DecidableEq

/-- Assignment operator kinds (spec §4.3 `Assign`: `=`, `+=`, `-=`). -/
inductive AsgOp where
  | set | addSet | subSet
  deriving Repr, DecidableEq

mutual

/-- Modelled from the spec: the expression variants of the AST
(spec §4.3), each node carrying its span. A string literal holds its
segments: literal text alternating with embedded interpolation
sub-expressions (spec §4.3). -/
inductive Expr where
  | intE (n : Nat) (sp : Span)
  | boolE (b : Bool) (sp : Span)
  | nilE (sp : Span)
  | strE (parts : List StrPart) (sp : Span)
  | identE (name : String) (sp : Span)
  | unary (op : UnOp) (e : Expr) (sp : Span)
  | binary (op : BinOp) (l : Expr) (r : Expr) (sp : Span)
  | ternary (c : Expr) (t : Expr) (f : Expr) (sp : Span)
  | nonNilAssert (e : Expr) (sp : Span)
  | call (callee : Expr) (args : List Expr) (sp : Span)
  | indexE (tgt : Expr) (idx : Expr) (sp : Span)
  | member (tgt : Expr) (name : String) (sp : Span)
  | arrayE (elems : List Expr) (sp : Span)
  | compound (fields : List (String × Expr)) (sp : Span)
  | typeDef (fields : List (String × String)) (sp : Span)
  | arrowFn (params : List String) (body : List Stmt) (sp : Span)

/-- Modelled from the spec: the statement variants of the AST
(spec §4.3), each node carrying its span. -/
inductive Stmt where
  | importS (path : String) (sp : Span)
  | exportS (path : String) (sp : Span)
  | moduleS (name : String) (sp : Span)
  | letS (name : String) (init : Option Expr) (sp : Span)
  | constS (name : String) (init : Expr) (sp : Span)
  | nativeConstS (name : String) (sp : Span)
  | nativeFnS (name : String) (params : List String) (sp : Span)
  | fnS (name : String) (params : List String) (body : List Stmt) (sp : Span)
  | ifS (cond : Expr) (thenB : List Stmt) (elseB : Option (List Stmt)) (sp : Span)
  | whileS (cond : Expr) (body : List Stmt) (sp : Span)
  | forS (binding : String) (iter : Expr) (body : List Stmt) (sp : Span)
  | breakS (sp : Span)
  | continueS (sp : Span)
  | returnS (value : Option Expr) (sp : Span)
  | xreturnS (value : Option Expr) (sp : Span)
  | throwS (value : Expr) (sp : Span)
  | tryCatchS (tryB : List Stmt) (clauses : List CatchClause)
      (catchAll : Option (String × List Stmt)) (nilCatch : Option (List Stmt))
      (sp : Span)
  | assignS (target : Expr) (op : AsgOp) (value : Expr) (sp : Span)
  | exprS (e : Expr) (sp : Span)

/-- A typed catch clause: dotted type path, binding name (`_` for a
discard), and body (spec §4.3 catch-clause shape). -/
inductive CatchClause where
  | mk (typePath : String) (binding : String) (body : List Stmt)

/-- One segment of a string literal: literal text, or an embedded
interpolation sub-expression the parser re-entered (spec §4.1, §4.3). -/
inductive StrPart where
  | lit (s : String)
  | interp (e : Expr)

end

/-- The span carried by an expression node. -/
def Expr.span : Expr → Span
  | .intE _ sp | .boolE _ sp | .nilE sp | .strE _ sp | .identE _ sp
  | .unary _ _ sp | .binary _ _ _ sp | .ternary _ _ _ sp
  | .nonNilAssert _ sp | .call _ _ sp | .indexE _ _ sp | .member _ _ sp
  | .arrayE _ sp | .compound _ sp | .typeDef _ sp | .arrowFn _ _ sp => sp

/-- The span carried by a statement node. -/
def Stmt.span : Stmt → Span
  | .importS _ sp | .exportS _ sp | .moduleS _ sp | .letS _ _ sp
  | .constS _ _ sp | .nativeConstS _ sp | .nativeFnS _ _ sp
  | .fnS _ _ _ sp | .ifS _ _ _ sp | .whileS _ _ sp | .forS _ _ _ sp
  | .breakS sp | .continueS sp | .returnS _ sp | .xreturnS _ sp
  | .throwS _ sp | .tryCatchS _ _ _ _ sp | .assignS _ _ _ sp
  | .exprS _ sp => sp

/-! ### Parser -/

/-- The token stream remaining to be parsed. -/
abbrev Toks := List (Token × Span)

/-- Span of the next token, `(0, 0)` at end of input. -/
def headSpan : Toks → Span
  | [] => (0, 0)
  | (_, sp) :: _ => sp

/-- Consume one expected token. -/
def expectTok (t : Token) : Toks → Except PError (Span × Toks)
  | [] => .error ⟨.unexpectedEof, (0, 0)⟩
  | (t2, sp) :: rest =>
    if tokEq t2 t then .ok (sp, rest) else .error ⟨.unexpectedToken, sp⟩

/-- Consume one identifier token, returning its text and span. -/
def expectIdentT : Toks → Except PError ((String × Span) × Toks)
  | (.ident s, sp) :: rest => .ok ((s, sp), rest)
  | [] => .error ⟨.unexpectedEof, (0, 0)⟩
  | (_, sp) :: _ => .error ⟨.unexpectedToken, sp⟩

/-- Consume the contextual keyword `as` followed by a binding identifier
(`_` is the discard binding). -/
def expectAs : Toks → Except PError ((String × Span) × Toks)
  | (.ident a, asp) :: rest =>
    if a = "as" then expectIdentT rest else .error ⟨.unexpectedToken, asp⟩
  | [] => .error ⟨.unexpectedEof, (0, 0)⟩
  | (_, sp) :: _ => .error ⟨.unexpectedToken, sp⟩

/-- Lookahead after an opening parenthesis: does the stream shape an arrow
function head `(a, b) =>`? The flag tracks whether an identifier (true) or
a separator (false) is expected next. -/
def arrowLook : Bool → Toks → Bool
  | _, (.rparen, _) :: (.fatArrow, _) :: _ => true
  | true, (.ident _, _) :: rest => arrowLook false rest
  | false, (.comma, _) :: rest => arrowLook true rest
  | _, _ => false

/-- Parameter list of a function declaration, after its `(`: identifiers
separated by commas, trailing comma tolerated; returns the `)` span. -/
def pParams : Nat → Toks → Except PError ((List String × Span) × Toks)
  | 0, toks => .error ⟨.fuelE, headSpan toks⟩
  | _ + 1, (.rparen, sp) :: rest => .ok (([], sp), rest)
  | fuel + 1, (.ident s, _) :: rest =>
    (match rest with
     | (.comma, _) :: r2 => do
        let ((ps, sp), r3) ← pParams fuel r2
        .ok ((s :: ps, sp), r3)
     | (.rparen, sp) :: r2 => .ok (([s], sp), r2)
     | (_, sp) :: _ => .error ⟨.unexpectedToken, sp⟩
     | [] => .error ⟨.unexpectedEof, (0, 0)⟩)
  | _ + 1, (_, sp) :: _ => .error ⟨.unexpectedToken, sp⟩
  | _ + 1, [] => .error ⟨.unexpectedEof, (0, 0)⟩
termination_by structural fuel => fuel

/-- A dotted identifier path (joined with `.`) or a single string literal,
as used by `import`/`export`/`module` and catch-clause type paths. -/
def pPathR : Nat → String → Span → Toks → Except PError ((String × Span) × Toks)
  | 0, _, _, toks => .error ⟨.fuelE, headSpan toks⟩
  | fuel + 1, acc, sp, (.dot, _) :: (.ident s, sp2) :: rest =>
    pPathR fuel (acc ++ "." ++ s) (sp.1, sp2.2) rest
  | _ + 1, acc, sp, toks => .ok ((acc, sp), toks)
termination_by structural fuel => fuel

/-- Entry for `pPathR`: a path starts with an identifier or is one
interpolation-free string literal. -/
def pPathOrStr (fuel : Nat) : Toks → Except PError ((String × Span) × Toks)
  | (.strLit parts, sp) :: rest =>
    (match plainOf parts with
     | some s => .ok ((s, sp), rest)
     | none => .error ⟨.unexpectedToken, sp⟩)
  | (.ident s, sp) :: rest => pPathR fuel s sp rest
  | [] => .error ⟨.unexpectedEof, (0, 0)⟩
  | (_, sp) :: _ => .error ⟨.unexpectedToken, sp⟩

/-- Fields of a type-definition literal, after its `{`:
`key: type-name` pairs (bare-identifier or string keys), comma separated
with trailing comma tolerance; consumes the closing `}`. -/
def pTypeFields : Nat → Toks → Except PError ((List (String × String) × Span) × Toks)
  | 0, toks => .error ⟨.fuelE, headSpan toks⟩
  | _ + 1, (.rbrace, sp) :: rest => .ok (([], sp), rest)
  | fuel + 1, (k, ksp) :: rest =>
    (match
       (match k with
        | .ident key => some key
        | .strLit parts => plainOf parts
        | _ => none) with
     | some key =>
       (match rest with
        | (.colon, _) :: (.ident ty, _) :: r2 =>
          (match r2 with
           | (.comma, _) :: r3 => do
              let ((fs, sp), r4) ← pTypeFields fuel r3
              .ok (((key, ty) :: fs, sp), r4)
           | (.rbrace, sp) :: r3 => .ok (([(key, ty)], sp), r3)
           | (_, sp) :: _ => .error ⟨.unexpectedToken, sp⟩
           | [] => .error ⟨.unexpectedEof, (0, 0)⟩)
        | (_, sp) :: _ => .error ⟨.unexpectedToken, sp⟩
        | [] => .error ⟨.unexpectedEof, (0, 0)⟩)
     | none => .error ⟨.unexpectedToken, ksp⟩)
  | _ + 1, [] => .error ⟨.unexpectedEof, (0, 0)⟩
termination_by structural fuel => fuel

/-- Whether the next token can begin an expression (used for the optional
operand of `return`/`xreturn`). -/
def exprStart : Toks → Bool
  | (t, _) :: _ =>
    (match t with
     | .intLit _ | .strLit _ | .ident _ | .boolLit _ | .nilLit
     | .lparen | .lbracket | .lbrace | .kwType | .bang | .minus => true
     | _ => false)
  | [] => false

/-- Consume one optional trailing semicolon after a statement (a trailing
`;` is optional for every statement form at `parse_statement`). -/
def finishStmt (s : Stmt) : Toks → Except PError (Stmt × Toks)
  | (.semicolon, _) :: rest => .ok (s, rest)
  | toks => .ok (s, toks)

/-- The binary operator of a precedence level (0 lowest): `|`, `&`,
`== !=`, comparisons, `+ -`, `* /`, `**` (spec §4.3 precedence table). -/
def opOf : Nat → Token → Option BinOp
  | 0, .pipe => some .bor
  | 1, .amp => some .band
  | 2, .eqeq => some .eq
  | 2, .neq => some .ne
  | 3, .ltT => some .lt
  | 3, .gtT => some .gt
  | 3, .leT => some .le
  | 3, .geT => some .ge
  | 4, .plus => some .add
  | 4, .minus => some .sub
  | 5, .star => some .mul
  | 5, .slash => some .div
  | 6, .dstar => some .pow
  | _, _ => none

/-- A binary node spanning both operands. -/
def mkBin (op : BinOp) (l r : Expr) : Expr :=
  .binary op l r (l.span.1, r.span.2)

mutual

/-- Modelled from the spec: `parse_expression` body — the precedence
climber's entry, the ternary `?:` level (right-associative, lowest). -/
def pTernary : Nat → Toks → Except PError (Expr × Toks)
  | 0, toks => .error ⟨.fuelE, headSpan toks⟩
  | fuel + 1, toks => do
    let (c, r1) ← pRange fuel toks
    match r1 with
    | (.question, _) :: r2 => do
      let (t, r3) ← pTernary fuel r2
      let (_, r4) ← expectTok .colon r3
      let (f, r5) ← pTernary fuel r4
      .ok (.ternary c t f (c.span.1, f.span.2), r5)
    | _ => .ok (c, r1)
termination_by structural fuel => fuel

/-- The range level: `a .. b` over the `|` level. -/
def pRange : Nat → Toks → Except PError (Expr × Toks)
  | 0, toks => .error ⟨.fuelE, headSpan toks⟩
  | fuel + 1, toks => do
    let (l, r1) ← pBin fuel 0 toks
    match r1 with
    | (.dotdot, _) :: r2 => do
      let (r, r3) ← pBin fuel 0 r2
      .ok (mkBin .rng l r, r3)
    | _ => .ok (l, r1)
termination_by structural fuel => fuel

/-- Left-associative binary levels 0–5 and the right-associative `**`
level 6; levels above 6 fall through to the unary level. -/
def pBin : Nat → Nat → Toks → Except PError (Expr × Toks)
  | 0, _, toks => .error ⟨.fuelE, headSpan toks⟩
  | fuel + 1, lvl, toks =>
    if lvl ≥ 7 then pUnary fuel toks
    else do
      let (l, r1) ← pBin fuel (lvl + 1) toks
      pBinR fuel lvl l r1
termination_by structural fuel => fuel

/-- The operator/right-operand loop of a binary level. -/
def pBinR : Nat → Nat → Expr → Toks → Except PError (Expr × Toks)
  | 0, _, _, toks => .error ⟨.fuelE, headSpan toks⟩
  | fuel + 1, lvl, l, toks =>
    match toks with
    | (t, _) :: rest =>
      (match opOf lvl t with
       | some op =>
         if lvl = 6 then do
           let (r, r1) ← pBin fuel 6 rest
           .ok (mkBin op l r, r1)
         else do
           let (r, r1) ← pBin fuel (lvl + 1) rest
           pBinR fuel lvl (mkBin op l r) r1
       | none => .ok (l, toks))
    | [] => .ok (l, toks)
termination_by structural fuel => fuel

/-- The unary level: prefix `!` and `-` bind tighter than `**`
(spec §4.3 precedence). -/
def pUnary : Nat → Toks → Except PError (Expr × Toks)
  | 0, toks => .error ⟨.fuelE, headSpan toks⟩
  | fuel + 1, toks =>
    match toks with
    | (.bang, sp) :: rest => do
      let (e, r1) ← pUnary fuel rest
      .ok (.unary .lnot e (sp.1, e.span.2), r1)
    | (.minus, sp) :: rest => do
      let (e, r1) ← pUnary fuel rest
      .ok (.unary .neg e (sp.1, e.span.2), r1)
    | _ => pPostfix fuel toks
termination_by structural fuel => fuel

/-- The postfix chain on a primary: `!!`, calls, indexing and member
access bind tighter than all operators (spec §4.3). -/
def pPostfix : Nat → Toks → Except PError (Expr × Toks)
  | 0, toks => .error ⟨.fuelE, headSpan toks⟩
  | fuel + 1, toks => do
    let (e, r1) ← pPrimary fuel toks
    pPostR fuel e r1
termination_by structural fuel => fuel

/-- The loop of the postfix chain. -/
def pPostR : Nat → Expr → Toks → Except PError (Expr × Toks)
  | 0, _, toks => .error ⟨.fuelE, headSpan toks⟩
  | fuel + 1, e, toks =>
    match toks with
    | (.bangbang, sp) :: rest =>
      pPostR fuel (.nonNilAssert e (e.span.1, sp.2)) rest
    | (.lparen, _) :: rest => do
      let ((args, rsp), r1) ← pArgs fuel rest
      pPostR fuel (.call e args (e.span.1, rsp.2)) r1
    | (.lbracket, _) :: rest => do
      let (i, r1) ← pTernary fuel rest
      let (rsp, r2) ← expectTok .rbracket r1
      pPostR fuel (.indexE e i (e.span.1, rsp.2)) r2
    | (.dot, _) :: rest => do
      let ((n, nsp), r1) ← expectIdentT rest
      pPostR fuel (.member e n (e.span.1, nsp.2)) r1
    | _ => .ok (e, toks)
termination_by structural fuel => fuel

/-- Primaries: literals, identifier references, compound/array/type
literals, parenthesised groups and arrow functions. -/
def pPrimary : Nat → Toks → Except PError (Expr × Toks)
  | 0, toks => .error ⟨.fuelE, headSpan toks⟩
  | fuel + 1, toks =>
    match toks with
    | (.intLit n, sp) :: rest => .ok (.intE n sp, rest)
    | (.strLit parts, sp) :: rest =>
      (match pStrParts fuel parts with
       | .error e => .error e
       | .ok ps => .ok (.strE ps sp, rest))
    | (.boolLit b, sp) :: rest => .ok (.boolE b sp, rest)
    | (.nilLit, sp) :: rest => .ok (.nilE sp, rest)
    | (.ident s, sp) :: rest => .ok (.identE s sp, rest)
    | (.kwType, sp) :: rest => do
      let (_, r1) ← expectTok .lbrace rest
      let ((fs, esp), r2) ← pTypeFields fuel r1
      .ok (.typeDef fs (sp.1, esp.2), r2)
    | (.lbrace, sp) :: rest => do
      let ((fs, esp), r1) ← pFields fuel rest
      .ok (.compound fs (sp.1, esp.2), r1)
    | (.lbracket, sp) :: rest => do
      let ((es, esp), r1) ← pArrayElems fuel rest
      .ok (.arrayE es (sp.1, esp.2), r1)
    | (.lparen, sp) :: rest =>
      if arrowLook true rest then do
        let ((ps, _), r1) ← pParams fuel rest
        let (_, r2) ← expectTok .fatArrow r1
        let ((body, esp), r3) ← pBlock fuel r2
        .ok (.arrowFn ps body (sp.1, esp.2), r3)
      else do
        let (e, r1) ← pTernary fuel rest
        let (_, r2) ← expectTok .rparen r1
        .ok (e, r2)
    | (_, sp) :: _ => .error ⟨.unexpectedToken, sp⟩
    | [] => .error ⟨.unexpectedEof, (0, 0)⟩
termination_by structural fuel => fuel

/-- Call arguments after `(`: expressions separated by commas with
trailing-comma tolerance; consumes the closing `)` and returns its span.
A dangling unterminated call fails with an unexpected-end-of-input error
(spec §4.3 error recovery). -/
def pArgs : Nat → Toks → Except PError ((List Expr × Span) × Toks)
  | 0, toks => .error ⟨.fuelE, headSpan toks⟩
  | fuel + 1, toks =>
    match toks with
    | (.rparen, sp) :: rest => .ok (([], sp), rest)
    | [] => .error ⟨.unexpectedEof, (0, 0)⟩
    | _ => do
      let (e, r1) ← pTernary fuel toks
      match r1 with
      | (.comma, _) :: r2 => do
        let ((es, sp), r3) ← pArgs fuel r2
        .ok ((e :: es, sp), r3)
      | (.rparen, sp) :: r2 => .ok (([e], sp), r2)
      | (_, sp) :: _ => .error ⟨.unexpectedToken, sp⟩
      | [] => .error ⟨.unexpectedEof, (0, 0)⟩
termination_by structural fuel => fuel

/-- Array elements after `[`, up to the closing `]`. -/
def pArrayElems : Nat → Toks → Except PError ((List Expr × Span) × Toks)
  | 0, toks => .error ⟨.fuelE, headSpan toks⟩
  | fuel + 1, toks =>
    match toks with
    | (.rbracket, sp) :: rest => .ok (([], sp), rest)
    | [] => .error ⟨.unexpectedEof, (0, 0)⟩
    | _ => do
      let (e, r1) ← pTernary fuel toks
      match r1 with
      | (.comma, _) :: r2 => do
        let ((es, sp), r3) ← pArrayElems fuel r2
        .ok ((e :: es, sp), r3)
      | (.rbracket, sp) :: r2 => .ok (([e], sp), r2)
      | (_, sp) :: _ => .error ⟨.unexpectedToken, sp⟩
      | [] => .error ⟨.unexpectedEof, (0, 0)⟩
termination_by structural fuel => fuel

/-- Compound-literal fields after `{`: `key: value` pairs with bare or
string keys, up to the closing `}`. -/
def pFields : Nat → Toks → Except PError ((List (String × Expr) × Span) × Toks)
  | 0, toks => .error ⟨.fuelE, headSpan toks⟩
  | fuel + 1, toks =>
    match toks with
    | (.rbrace, sp) :: rest => .ok (([], sp), rest)
    | (.ident key, _) :: (.colon, _) :: r1 => pFieldsCont fuel key r1
    | (.strLit parts, ksp) :: (.colon, _) :: r1 =>
      (match plainOf parts with
       | some key => pFieldsCont fuel key r1
       | none => .error ⟨.unexpectedToken, ksp⟩)
    | (_, sp) :: _ => .error ⟨.unexpectedToken, sp⟩
    | [] => .error ⟨.unexpectedEof, (0, 0)⟩
termination_by structural fuel => fuel

/-- The value and separator of one compound-literal field. -/
def pFieldsCont : Nat → String → Toks → Except PError ((List (String × Expr) × Span) × Toks)
  | 0, _, toks => .error ⟨.fuelE, headSpan toks⟩
  | fuel + 1, key, toks => do
    let (v, r1) ← pTernary fuel toks
    match r1 with
    | (.comma, _) :: r2 => do
      let ((fs, sp), r3) ← pFields fuel r2
      .ok (((key, v) :: fs, sp), r3)
    | (.rbrace, sp) :: r2 => .ok (([(key, v)], sp), r2)
    | (_, sp) :: _ => .error ⟨.unexpectedToken, sp⟩
    | [] => .error ⟨.unexpectedEof, (0, 0)⟩
termination_by structural fuel => fuel

/-- A braced block `{ stmts }`, returning the closing `}` span. -/
def pBlock : Nat → Toks → Except PError ((List Stmt × Span) × Toks)
  | 0, toks => .error ⟨.fuelE, headSpan toks⟩
  | fuel + 1, toks => do
    let (_, r1) ← expectTok .lbrace toks
    let (ss, r2) ← pStmts fuel r1
    let (rsp, r3) ← expectTok .rbrace r2
    .ok ((ss, rsp), r3)
termination_by structural fuel => fuel

/-- Statements of a block, up to (not consuming) the closing `}`. -/
def pStmts : Nat → Toks → Except PError ((List Stmt) × Toks)
  | 0, toks => .error ⟨.fuelE, headSpan toks⟩
  | fuel + 1, toks =>
    match toks with
    | [] => .ok ([], [])
    | (.rbrace, _) :: _ => .ok ([], toks)
    | _ => do
      let (s, r1) ← pStmt fuel toks
      let (ss, r2) ← pStmts fuel r1
      .ok (s :: ss, r2)
termination_by structural fuel => fuel

/-- Modelled from the spec: `parse_statement` body — dispatch over the
statement grammar (spec §4.3 statement variants). `native let` is rejected
at parse time (spec §4.4 native restriction); a for-loop binding is an
identifier or a string literal; a trailing `;` is optional. -/
def pStmt : Nat → Toks → Except PError (Stmt × Toks)
  | 0, toks => .error ⟨.fuelE, headSpan toks⟩
  | fuel + 1, toks =>
    match toks with
    | [] => .error ⟨.unexpectedEof, (0, 0)⟩
    | (tok, sp) :: rest =>
      match tok with
      | .kwImport => do
        let ((path, psp), r1) ← pPathOrStr fuel rest
        finishStmt (.importS path (sp.1, psp.2)) r1
      | .kwExport => do
        let ((path, psp), r1) ← pPathOrStr fuel rest
        finishStmt (.exportS path (sp.1, psp.2)) r1
      | .kwModule => do
        let ((name, psp), r1) ← pPathOrStr fuel rest
        finishStmt (.moduleS name (sp.1, psp.2)) r1
      | .kwLet => do
        let ((name, nsp), r1) ← expectIdentT rest
        match r1 with
        | (.assignT, _) :: r2 => do
          let (e, r3) ← pTernary fuel r2
          finishStmt (.letS name (some e) (sp.1, e.span.2)) r3
        | _ => finishStmt (.letS name none (sp.1, nsp.2)) r1
      | .kwConst => do
        let ((name, _), r1) ← expectIdentT rest
        let (_, r2) ← expectTok .assignT r1
        let (e, r3) ← pTernary fuel r2
        finishStmt (.constS name e (sp.1, e.span.2)) r3
      | .kwNative =>
        (match rest with
         | (.kwConst, _) :: r1 => do
           let ((name, nsp), r2) ← expectIdentT r1
           finishStmt (.nativeConstS name (sp.1, nsp.2)) r2
         | (.kwFn, _) :: r1 => do
           let ((name, _), r2) ← expectIdentT r1
           let (_, r3) ← expectTok .lparen r2
           let ((ps, esp), r4) ← pParams fuel r3
           finishStmt (.nativeFnS name ps (sp.1, esp.2)) r4
         | (.kwLet, lsp) :: _ => .error ⟨.nativeLetE, lsp⟩
         | (_, s2) :: _ => .error ⟨.unexpectedToken, s2⟩
         | [] => .error ⟨.unexpectedEof, (0, 0)⟩)
      | .kwFn => do
        let ((name, _), r1) ← expectIdentT rest
        let (_, r2) ← expectTok .lparen r1
        let ((ps, _), r3) ← pParams fuel r2
        let ((body, esp), r4) ← pBlock fuel r3
        finishStmt (.fnS name ps body (sp.1, esp.2)) r4
      | .kwIf => do
        let (cond, r1) ← pTernary fuel rest
        let ((thenB, tsp), r2) ← pBlock fuel r1
        match r2 with
        | (.kwElse, _) :: (.kwIf, isp) :: r3 => do
          let (s, r4) ← pStmt fuel ((.kwIf, isp) :: r3)
          finishStmt (.ifS cond thenB (some [s]) (sp.1, s.span.2)) r4
        | (.kwElse, _) :: r3 => do
          let ((elseB, esp), r4) ← pBlock fuel r3
          finishStmt (.ifS cond thenB (some elseB) (sp.1, esp.2)) r4
        | _ => finishStmt (.ifS cond thenB none (sp.1, tsp.2)) r2
      | .kwWhile => do
        let (cond, r1) ← pTernary fuel rest
        let ((body, esp), r2) ← pBlock fuel r1
        finishStmt (.whileS cond body (sp.1, esp.2)) r2
      | .kwFor =>
        (match rest with
         | (.ident b, _) :: r1 => pForTail fuel sp b r1
         | (.strLit parts, bsp) :: r1 =>
           (match plainOf parts with
            | some b => pForTail fuel sp b r1
            | none => .error ⟨.unexpectedToken, bsp⟩)
         | (_, s2) :: _ => .error ⟨.unexpectedToken, s2⟩
         | [] => .error ⟨.unexpectedEof, (0, 0)⟩)
      | .kwBreak => finishStmt (.breakS sp) rest
      | .kwContinue => finishStmt (.continueS sp) rest
      | .kwReturn =>
        if exprStart rest then do
          let (e, r1) ← pTernary fuel rest
          finishStmt (.returnS (some e) (sp.1, e.span.2)) r1
        else finishStmt (.returnS none sp) rest
      | .kwXReturn =>
        if exprStart rest then do
          let (e, r1) ← pTernary fuel rest
          finishStmt (.xreturnS (some e) (sp.1, e.span.2)) r1
        else finishStmt (.xreturnS none sp) rest
      | .kwThrow => do
        let (e, r1) ← pTernary fuel rest
        finishStmt (.throwS e (sp.1, e.span.2)) r1
      | .kwTry => do
        let ((tryB, bsp), r1) ← pBlock fuel rest
        let ((clauses, catchAll, nilCatch, esp), r2) ← pCatches fuel bsp r1
        finishStmt (.tryCatchS tryB clauses catchAll nilCatch (sp.1, esp.2)) r2
      | _ => do
        let (e, r1) ← pTernary fuel toks
        match r1 with
        | (.assignT, _) :: r2 => do
          let (v, r3) ← pTernary fuel r2
          finishStmt (.assignS e .set v (e.span.1, v.span.2)) r3
        | (.plusAssign, _) :: r2 => do
          let (v, r3) ← pTernary fuel r2
          finishStmt (.assignS e .addSet v (e.span.1, v.span.2)) r3
        | (.minusAssign, _) :: r2 => do
          let (v, r3) ← pTernary fuel r2
          finishStmt (.assignS e .subSet v (e.span.1, v.span.2)) r3
        | _ => finishStmt (.exprS e e.span) r1
termination_by structural fuel => fuel

/-- The binding tail of a for statement: `in iterable { body }`. -/
def pForTail : Nat → Span → String → Toks → Except PError (Stmt × Toks)
  | 0, _, _, toks => .error ⟨.fuelE, headSpan toks⟩
  | fuel + 1, sp, b, toks =>
    match toks with
    | (.ident i, isp) :: r1 =>
      if i = "in" then do
        let (iter, r2) ← pTernary fuel r1
        let ((body, esp), r3) ← pBlock fuel r2
        finishStmt (.forS b iter body (sp.1, esp.2)) r3
      else .error ⟨.unexpectedToken, isp⟩
    | (_, s2) :: _ => .error ⟨.unexpectedToken, s2⟩
    | [] => .error ⟨.unexpectedEof, (0, 0)⟩
termination_by structural fuel => fuel

/-- The catch-clause sequence after a try block: typed clauses, then
optionally one wildcard clause `catch * as x`, then optionally one
nil-catch clause `catch?` — a clause after a wildcard or nil-catch clause
is a parse-time ordering error (spec §4.3). `endSp` is the span of the
last construct parsed so far. -/
def pCatches : Nat → Span → Toks →
    Except PError ((List CatchClause × Option (String × List Stmt) × Option (List Stmt) × Span) × Toks)
  | 0, _, toks => .error ⟨.fuelE, headSpan toks⟩
  | fuel + 1, endSp, toks =>
    match toks with
    | (.kwCatch, _) :: rest =>
      (match rest with
       | (.star, _) :: r1 => do
         let ((b, _), r2) ← expectAs r1
         let ((body, bsp), r3) ← pBlock fuel r2
         let ((nilC, esp), r4) ← pAfterWild fuel bsp r3
         .ok (([], some (b, body), nilC, esp), r4)
       | (.question, _) :: r1 => do
         let ((body, bsp), r2) ← pBlock fuel r1
         match r2 with
         | (.kwCatch, csp2) :: _ => .error ⟨.catchOrderE, csp2⟩
         | _ => .ok (([], none, some body, bsp), r2)
       | (.ident _, _) :: _ => do
         let ((tp, _), r1) ← pPathOrStr fuel rest
         let ((bind, _), r2) ← expectAs r1
         let ((body, bsp), r3) ← pBlock fuel r2
         let ((cls, ca, nc, esp), r4) ← pCatches fuel bsp r3
         .ok ((CatchClause.mk tp bind body :: cls, ca, nc, esp), r4)
       | (_, s2) :: _ => .error ⟨.unexpectedToken, s2⟩
       | [] => .error ⟨.unexpectedEof, (0, 0)⟩)
    | _ => .ok (([], none, none, endSp), toks)
termination_by structural fuel => fuel

/-- Re-enter the interpolation segments of a string literal as nested
expressions (spec §4.1): each raw `${...}` source is tokenized and parsed
as an expression; literal text segments are kept as they are. -/
def pStrParts : Nat → List (Bool × String) → Except PError (List StrPart)
  | 0, _ => .error ⟨.fuelE, (0, 0)⟩
  | _ + 1, [] => .ok []
  | fuel + 1, (false, s) :: rest =>
    (match pStrParts fuel rest with
     | .error e => .error e
     | .ok ps => .ok (.lit s :: ps))
  | fuel + 1, (true, src) :: rest =>
    (match tokenize src with
     | .error e => .error e
     | .ok toks =>
       match pTernary fuel toks with
       | .error e => .error e
       | .ok (e, _) =>
         match pStrParts fuel rest with
         | .error e2 => .error e2
         | .ok ps => .ok (.interp e :: ps))
termination_by structural fuel => fuel

/-- After a wildcard clause only a final nil-catch clause may follow;
any other clause is an ordering error (spec §4.3). -/
def pAfterWild : Nat → Span → Toks → Except PError ((Option (List Stmt) × Span) × Toks)
  | 0, _, toks => .error ⟨.fuelE, headSpan toks⟩
  | fuel + 1, endSp, toks =>
    match toks with
    | (.kwCatch, csp) :: rest =>
      (match rest with
       | (.question, _) :: r1 => do
         let ((body, bsp), r2) ← pBlock fuel r1
         match r2 with
         | (.kwCatch, csp2) :: _ => .error ⟨.catchOrderE, csp2⟩
         | _ => .ok ((some body, bsp), r2)
       | _ => .error ⟨.catchOrderE, csp⟩)
    | _ => .ok ((none, endSp), toks)
termination_by structural fuel => fuel

end

/-- All top-level statements until the input is exhausted (`parse()` drives
repeated `parse_statement()` calls, spec §4.3). -/
def pProgram : Nat → Toks → Except PError (List Stmt)
  | 0, toks => .error ⟨.fuelE, headSpan toks⟩
  | _ + 1, [] => .ok []
  | fuel + 1, toks => do
    let (s, r1) ← pStmt fuel toks
    let ss ← pProgram fuel r1
    .ok (s :: ss)
termination_by structural fuel => fuel

/-- Fuel that always suffices for a source string: the grammar descends
at most a constant number of levels per consumed character (characters
inside interpolation segments included). -/
def fuelOf (s : String) : Nat := 64 * s.length + 64

/-- Modelled from the spec: the `parse_expression` entry point over an
in-memory string (spec §4.3, §6). -/
def parse_expression (s : String) : Except PError Expr :=
  match tokenize s with
  | .error e => .error e
  | .ok toks =>
    match pTernary (fuelOf s) toks with
    | .error e => .error e
    | .ok (e, _) => .ok e

/-- Modelled from the spec: the `parse_statement` entry point over an
in-memory string (spec §4.3, §6). -/
def parse_statement (s : String) : Except PError Stmt :=
  match tokenize s with
  | .error e => .error e
  | .ok toks =>
    match pStmt (fuelOf s) toks with
    | .error e => .error e
    | .ok (st, _) => .ok st

/-- Modelled from the spec: the whole-unit `parse()` entry point,
producing the ordered sequence of top-level statements (spec §4.3, §6). -/
def parse (s : String) : Except PError (List Stmt) :=
  match tokenize s with
  | .error e => .error e
  | .ok toks => pProgram (fuelOf s) toks

/-! ### Validator -/

/-- The kinds of semantic diagnostics of the validation pass
(spec §4.4): undefined reference, constant reassignment, unreachable
code. -/
inductive DiagKind where
  | undefinedRef
  | constReassign
  | unreachableCode
  deriving Repr, DecidableEq

/-- One validation diagnostic: its kind, the primary position, and the
labelled spans to render (spec §3 ErrorReport: `position` plus
`(area, label)` pairs; `labels` is non-empty and covers `position`). -/
structure Diag where
  kind : DiagKind
  pos : Span
  labels : List (Span × String)
  deriving Repr, DecidableEq

/-- How a name was introduced (spec §4.4: let/const/fn/parameter/native
declarations). -/
inductive BindKind where
  | letB | constB | fnB | paramB | nativeConstB | nativeFnB
  deriving Repr, DecidableEq

/-- A visible binding: name, kind, and the declaration's span. -/
structure Binding where
  name : String
  kind : BindKind
  declSpan : Span
  deriving Repr, DecidableEq

/-- Lexically nested scopes, innermost first (spec §4.4: block-structured
scopes; a child sees enclosing bindings declared before its start). -/
abbrev Env := List (List Binding)

/-- Find a binding in one scope, most recent declaration first. -/
def lookupScope (name : String) : List Binding → Option Binding
  | [] => none
  | b :: bs => if b.name = name then some b else lookupScope name bs

/-- Find the nearest visible binding. -/
def lookupEnv (env : Env) (name : String) : Option Binding :=
  match env with
  | [] => none
  | s :: ss =>
    match lookupScope name s with
    | some b => some b
    | none => lookupEnv ss name

/-- Declare a binding in the innermost scope. -/
def bindIn (env : Env) (b : Binding) : Env :=
  match env with
  | [] => [[b]]
  | s :: ss => (b :: s) :: ss

/-- Whether a statement unconditionally exits its block, making sequential
successors unreachable (spec §4.4 unreachable-code check). -/
def isTerminator : Stmt → Bool
  | .returnS _ _ | .xreturnS _ _ | .throwS _ _ | .breakS _ | .continueS _ => true
  | _ => false

/-- The parameter scope of a function body. -/
def paramScope (sp : Span) (ps : List String) : List Binding :=
  ps.map fun p => ⟨p, .paramB, sp⟩

mutual

/-- Modelled from the spec: the validator's expression walk (spec §4.4).
Every identifier used in value position must resolve to a visible
binding; an unbound reference is reported at the reference's span. -/
def vExpr : Nat → Env → Expr → List Diag
  | 0, _, _ => []
  | fuel + 1, env, e =>
    match e with
    | .intE _ _ | .boolE _ _ | .nilE _ | .typeDef _ _ => []
    | .strE parts _ => vParts fuel env parts
    | .identE name sp =>
      (match lookupEnv env name with
       | some _ => []
       | none => [⟨.undefinedRef, sp, [(sp, "undefined reference")]⟩])
    | .unary _ e1 _ => vExpr fuel env e1
    | .binary _ l r _ => vExpr fuel env l ++ vExpr fuel env r
    | .ternary c t f _ => vExpr fuel env c ++ vExpr fuel env t ++ vExpr fuel env f
    | .nonNilAssert e1 _ => vExpr fuel env e1
    | .call c args _ => vExpr fuel env c ++ vExprList fuel env args
    | .indexE t i _ => vExpr fuel env t ++ vExpr fuel env i
    | .member t _ _ => vExpr fuel env t
    | .arrayE es _ => vExprList fuel env es
    | .compound fs _ => vFields fuel env fs
    | .arrowFn ps body sp => vStmtSeq fuel false (paramScope sp ps :: env) body
termination_by structural fuel => fuel

/-- String-literal segment walk: interpolation sub-expressions are value
positions (spec §4.4). -/
def vParts : Nat → Env → List StrPart → List Diag
  | 0, _, _ => []
  | _ + 1, _, [] => []
  | fuel + 1, env, .lit _ :: ps => vParts fuel env ps
  | fuel + 1, env, .interp e :: ps => vExpr fuel env e ++ vParts fuel env ps
termination_by structural fuel => fuel

/-- Expression-list walk. -/
def vExprList : Nat → Env → List Expr → List Diag
  | 0, _, _ => []
  | _ + 1, _, [] => []
  | fuel + 1, env, e :: es => vExpr fuel env e ++ vExprList fuel env es
termination_by structural fuel => fuel

/-- Compound-literal field walk. -/
def vFields : Nat → Env → List (String × Expr) → List Diag
  | 0, _, _ => []
  | _ + 1, _, [] => []
  | fuel + 1, env, (_, v) :: fs => vExpr fuel env v ++ vFields fuel env fs
termination_by structural fuel => fuel

/-- A statement sequence within one block: diagnostics are collected
across all statements (not short-circuited, spec §7); `dead` marks that a
terminator was passed, flagging each following statement as unreachable. -/
def vStmtSeq : Nat → Bool → Env → List Stmt → List Diag
  | 0, _, _, _ => []
  | _ + 1, _, _, [] => []
  | fuel + 1, dead, env, s :: rest =>
    let (ds, env2) := vStmt fuel env s
    let unreach : List Diag :=
      if dead then [⟨.unreachableCode, s.span, [(s.span, "unreachable code")]⟩] else []
    unreach ++ ds ++ vStmtSeq fuel (dead || isTerminator s) env2 rest
termination_by structural fuel => fuel

/-- Modelled from the spec: the validator's statement walk (spec §4.4):
declarations add bindings; an `Assign` whose target resolves to a `const`
(or `native const`) binding is reported at the assignment span with a
secondary label at the original declaration. -/
def vStmt : Nat → Env → Stmt → List Diag × Env
  | 0, _, _ => ([], [])
  | fuel + 1, env, s =>
    match s with
    | .importS _ _ | .exportS _ _ | .moduleS _ _ => ([], env)
    | .letS name init sp =>
      (match init with
       | some e => vExpr fuel env e
       | none => [],
       bindIn env ⟨name, .letB, sp⟩)
    | .constS name init sp =>
      (vExpr fuel env init, bindIn env ⟨name, .constB, sp⟩)
    | .nativeConstS name sp => ([], bindIn env ⟨name, .nativeConstB, sp⟩)
    | .nativeFnS name _ sp => ([], bindIn env ⟨name, .nativeFnB, sp⟩)
    | .fnS name ps body sp =>
      let env2 := bindIn env ⟨name, .fnB, sp⟩
      (vStmtSeq fuel false (paramScope sp ps :: env2) body, env2)
    | .ifS cond thenB elseB _ =>
      (vExpr fuel env cond ++ vStmtSeq fuel false ([] :: env) thenB ++
        (match elseB with
         | some b => vStmtSeq fuel false ([] :: env) b
         | none => []),
       env)
    | .whileS cond body _ =>
      (vExpr fuel env cond ++ vStmtSeq fuel false ([] :: env) body, env)
    | .forS b iter body sp =>
      (vExpr fuel env iter ++ vStmtSeq fuel false ([⟨b, .letB, sp⟩] :: env) body, env)
    | .breakS _ | .continueS _ => ([], env)
    | .returnS v _ | .xreturnS v _ =>
      (match v with
       | some e => vExpr fuel env e
       | none => [],
       env)
    | .throwS e _ => (vExpr fuel env e, env)
    | .tryCatchS tryB clauses catchAll nilCatch sp =>
      (vStmtSeq fuel false ([] :: env) tryB ++ vClauses fuel env sp clauses ++
        (match catchAll with
         | some (b, body) => vStmtSeq fuel false ([⟨b, .letB, sp⟩] :: env) body
         | none => []) ++
        (match nilCatch with
         | some body => vStmtSeq fuel false ([] :: env) body
         | none => []),
       env)
    | .assignS target _ value sp =>
      (vExpr fuel env value ++
        (match target with
         | .identE name _ =>
           (match lookupEnv env name with
            | some b =>
              if b.kind = .constB || b.kind = .nativeConstB then
                [⟨.constReassign, sp,
                  [(sp, "cannot reassign constant"),
                   (b.declSpan, "constant declared here")]⟩]
              else []
            | none => [])
         | other => vExpr fuel env other),
       env)
    | .exprS e _ => (vExpr fuel env e, env)
termination_by structural fuel => fuel

/-- Typed catch clauses: each body runs in a scope holding the clause's
binding. -/
def vClauses : Nat → Env → Span → List CatchClause → List Diag
  | 0, _, _, _ => []
  | _ + 1, _, _, [] => []
  | fuel + 1, env, sp, .mk _ b body :: cls =>
    vStmtSeq fuel false ([⟨b, .letB, sp⟩] :: env) body ++ vClauses fuel env sp cls
termination_by structural fuel => fuel

end

/-- Modelled from the spec: the validation pass over a parsed unit
(spec §4.4), starting from an empty top-level scope. The fuel bounds the
AST depth; the pipeline passes one larger than the source length, which
always suffices since the AST is shallower than the token stream. -/
def validate (fuel : Nat) (stmts : List Stmt) : List Diag :=
  vStmtSeq fuel false [[]] stmts

/-- Modelled from the spec: pipeline composition `then_pipe(validator)
.finish_pipeline()` (spec §3, §4.3): the validator runs only if parsing
succeeded, and its diagnostics are collected alongside the AST. -/
def run_pipeline (s : String) : Except PError (List Stmt × List Diag) :=
  match parse s with
  | .error e => .error e
  | .ok stmts => .ok (stmts, validate (s.length + 1) stmts)

/-! ### Binary codec primitives -/

/-- Variable-length natural encoding: 7 value bits per byte, high bit set
on all but the last byte. -/
def encNat (n : Nat) : List Nat :=
  if n < 128 then [n] else (n % 128 + 128) :: encNat (n / 128)
termination_by n
decreasing_by omega

/-- Decode a variable-length natural, returning it and the rest. -/
def decNat : List Nat → Option (Nat × List Nat)
  | [] => none
  | b :: bs =>
    if b < 128 then some (b, bs)
    else
      match decNat bs with
      | some (n, r) => some (b - 128 + 128 * n, r)
      | none => none

theorem decNat_enc (n : Nat) (r : List Nat) :
    decNat (encNat n ++ r) = some (n, r) := by
  by_cases hn : n < 128
  · rw [encNat]
    simp [hn, decNat]
  · rw [encNat]
    simp only [hn, if_false, List.cons_append, decNat]
    have h2 : ¬(n % 128 + 128 < 128) := by omega
    simp only [h2, if_false, decNat_enc (n / 128) r]
    have h3 : n % 128 + 128 - 128 + 128 * (n / 128) = n := by omega
    rw [h3]
termination_by n
decreasing_by omega

theorem encNat_len_pos (n : Nat) : 1 ≤ (encNat n).length := by
  rw [encNat]
  by_cases hn : n < 128 <;> simp [hn]

/-- Characters encoded as their code points. -/
def encChars : List Char → List Nat
  | [] => []
  | c :: cs => encNat c.toNat ++ encChars cs

/-- Decode `k` characters. -/
def decChars : Nat → List Nat → Option (List Char × List Nat)
  | 0, bs => some ([], bs)
  | k + 1, bs =>
    match decNat bs with
    | some (n, r1) =>
      match decChars k r1 with
      | some (cs, r2) => some (Char.ofNat n :: cs, r2)
      | none => none
    | none => none

theorem decChars_enc (cs : List Char) (r : List Nat) :
    decChars cs.length (encChars cs ++ r) = some (cs, r) := by
  induction cs with
  | nil => simp [encChars, decChars]
  | cons c cs ih =>
    simp [encChars, decChars, List.append_assoc, decNat_enc, ih, Char.ofNat_toNat]

/-- A string: its length then its characters. -/
def encStr (s : String) : List Nat :=
  encNat s.data.length ++ encChars s.data

/-- Decode a string. -/
def decStr (bs : List Nat) : Option (String × List Nat) :=
  match decNat bs with
  | some (len, r1) =>
    match decChars len r1 with
    | some (cs, r2) => some (String.mk cs, r2)
    | none => none
  | none => none

theorem decStr_enc (s : String) (r : List Nat) :
    decStr (encStr s ++ r) = some (s, r) := by
  cases s with
  | mk data => simp [encStr, decStr, List.append_assoc, decNat_enc, decChars_enc]

/-- A span: start then end offset. -/
def encSpan (sp : Span) : List Nat :=
  encNat sp.1 ++ encNat sp.2

/-- Decode a span. -/
def decSpan (bs : List Nat) : Option (Span × List Nat) :=
  match decNat bs with
  | some (a, r1) =>
    match decNat r1 with
    | some (b, r2) => some ((a, b), r2)
    | none => none
  | none => none

theorem decSpan_enc (sp : Span) (r : List Nat) :
    decSpan (encSpan sp ++ r) = some (sp, r) := by
  cases sp with
  | mk a b => simp [encSpan, decSpan, List.append_assoc, decNat_enc]

/-- One-byte tag of a unary operator. -/
def encUnOpN : UnOp → Nat
  | .lnot => 0
  | .neg => 1

/-- Decode a unary operator tag. -/
def decUnOpN : Nat → Option UnOp
  | 0 => some .lnot
  | 1 => some .neg
  | _ => none

theorem decUnOpN_enc (op : UnOp) : decUnOpN (encUnOpN op) = some op := by
  cases op <;> rfl

/-- One-byte tag of a binary operator. -/
def encBinOpN : BinOp → Nat
  | .add => 0 | .sub => 1 | .mul => 2 | .div => 3 | .pow => 4
  | .band => 5 | .bor => 6
  | .eq => 7 | .ne => 8 | .lt => 9 | .gt => 10 | .le => 11 | .ge => 12
  | .rng => 13

/-- Decode a binary operator tag. -/
def decBinOpN : Nat → Option BinOp
  | 0 => some .add | 1 => some .sub | 2 => some .mul | 3 => some .div
  | 4 => some .pow | 5 => some .band | 6 => some .bor | 7 => some .eq
  | 8 => some .ne | 9 => some .lt | 10 => some .gt | 11 => some .le
  | 12 => some .ge | 13 => some .rng
  | _ => none

theorem decBinOpN_enc (op : BinOp) : decBinOpN (encBinOpN op) = some op := by
  cases op <;> rfl

/-- One-byte tag of an assignment operator. -/
def encAsgOpN : AsgOp → Nat
  | .set => 0
  | .addSet => 1
  | .subSet => 2

/-- Decode an assignment operator tag. -/
def decAsgOpN : Nat → Option AsgOp
  | 0 => some .set
  | 1 => some .addSet
  | 2 => some .subSet
  | _ => none

theorem decAsgOpN_enc (op : AsgOp) : decAsgOpN (encAsgOpN op) = some op := by
  cases op <;> rfl

/-- One-byte encoding of a boolean. -/
def encBoolN (b : Bool) : Nat := cond b 1 0

/-- Decode a boolean byte. -/
def decBoolN : Nat → Option Bool
  | 0 => some false
  | 1 => some true
  | _ => none

theorem decBoolN_enc (b : Bool) : decBoolN (encBoolN b) = some b := by
  cases b <;> rfl

/-- A list of strings: length then each string. -/
def encStrsAux : List String → List Nat
  | [] => []
  | s :: ss => encStr s ++ encStrsAux ss

/-- Decode `k` strings. -/
def decStrsAux : Nat → List Nat → Option (List String × List Nat)
  | 0, bs => some ([], bs)
  | k + 1, bs =>
    match decStr bs with
    | some (s, r1) =>
      match decStrsAux k r1 with
      | some (ss, r2) => some (s :: ss, r2)
      | none => none
    | none => none

theorem decStrsAux_enc (ss : List String) (r : List Nat) :
    decStrsAux ss.length (encStrsAux ss ++ r) = some (ss, r) := by
  induction ss with
  | nil => simp [encStrsAux, decStrsAux]
  | cons s ss ih => simp [encStrsAux, decStrsAux, List.append_assoc, decStr_enc, ih]

/-- A length-prefixed string list. -/
def encStrs (ss : List String) : List Nat :=
  encNat ss.length ++ encStrsAux ss

/-- Decode a length-prefixed string list. -/
def decStrs (bs : List Nat) : Option (List String × List Nat) :=
  match decNat bs with
  | some (len, r1) => decStrsAux len r1
  | none => none

theorem decStrs_enc (ss : List String) (r : List Nat) :
    decStrs (encStrs ss ++ r) = some (ss, r) := by
  simp [encStrs, decStrs, List.append_assoc, decNat_enc, decStrsAux_enc]

/-- A list of string pairs (type-definition fields): length then pairs. -/
def encStrPairsAux : List (String × String) → List Nat
  | [] => []
  | (a, b) :: ps => encStr a ++ encStr b ++ encStrPairsAux ps

/-- Decode `k` string pairs. -/
def decStrPairsAux : Nat → List Nat → Option (List (String × String) × List Nat)
  | 0, bs => some ([], bs)
  | k + 1, bs =>
    match decStr bs with
    | some (a, r1) =>
      match decStr r1 with
      | some (b, r2) =>
        match decStrPairsAux k r2 with
        | some (ps, r3) => some ((a, b) :: ps, r3)
        | none => none
      | none => none
    | none => none

theorem decStrPairsAux_enc (ps : List (String × String)) (r : List Nat) :
    decStrPairsAux ps.length (encStrPairsAux ps ++ r) = some (ps, r) := by
  induction ps with
  | nil => simp [encStrPairsAux, decStrPairsAux]
  | cons p ps ih =>
    cases p with
    | mk a b =>
      simp [encStrPairsAux, decStrPairsAux, List.append_assoc, decStr_enc, ih]

/-- A length-prefixed string-pair list. -/
def encStrPairs (ps : List (String × String)) : List Nat :=
  encNat ps.length ++ encStrPairsAux ps

/-- Decode a length-prefixed string-pair list. -/
def decStrPairs (bs : List Nat) : Option (List (String × String) × List Nat) :=
  match decNat bs with
  | some (len, r1) => decStrPairsAux len r1
  | none => none

theorem decStrPairs_enc (ps : List (String × String)) (r : List Nat) :
    decStrPairs (encStrPairs ps ++ r) = some (ps, r) := by
  simp [encStrPairs, decStrPairs, List.append_assoc, decNat_enc, decStrPairsAux_enc]

/-! ### Binary codec: encoder

Each AST node is one tag byte followed by its fields; lists and options
carry a marker byte per element (1 = another element / present, 0 = end /
absent), so every recursive decode step consumes at least one byte. The
encoding is exhaustive over every statement/expression variant
(spec §4.5). -/

mutual

/-- Modelled from the spec: the expression half of `to_binary`
(spec §4.5), exhaustive over every expression variant, spans included. -/
def encE : Expr → List Nat
  | .intE n sp => 0 :: (encNat n ++ encSpan sp)
  | .boolE b sp => 1 :: encBoolN b :: encSpan sp
  | .nilE sp => 2 :: encSpan sp
  | .strE parts sp => 3 :: (encPL parts ++ encSpan sp)
  | .identE s sp => 4 :: (encStr s ++ encSpan sp)
  | .unary op e sp => 5 :: encUnOpN op :: (encE e ++ encSpan sp)
  | .binary op l r sp => 6 :: encBinOpN op :: (encE l ++ encE r ++ encSpan sp)
  | .ternary c t f sp => 7 :: (encE c ++ encE t ++ encE f ++ encSpan sp)
  | .nonNilAssert e sp => 8 :: (encE e ++ encSpan sp)
  | .call c args sp => 9 :: (encE c ++ encEL args ++ encSpan sp)
  | .indexE t i sp => 10 :: (encE t ++ encE i ++ encSpan sp)
  | .member t n sp => 11 :: (encE t ++ encStr n ++ encSpan sp)
  | .arrayE es sp => 12 :: (encEL es ++ encSpan sp)
  | .compound fs sp => 13 :: (encFL fs ++ encSpan sp)
  | .typeDef fs sp => 14 :: (encStrPairs fs ++ encSpan sp)
  | .arrowFn ps body sp => 15 :: (encStrs ps ++ encSL body ++ encSpan sp)

/-- String-literal segment-list encoding: 0 ends the list, 1 marks a
literal-text segment, 2 marks an interpolation sub-expression. -/
def encPL : List StrPart → List Nat
  | [] => [0]
  | .lit s :: ps => 1 :: (encStr s ++ encPL ps)
  | .interp e :: ps => 2 :: (encE e ++ encPL ps)

/-- Expression-list encoding with per-element markers. -/
def encEL : List Expr → List Nat
  | [] => [0]
  | e :: es => 1 :: (encE e ++ encEL es)

/-- Compound-field-list encoding. -/
def encFL : List (String × Expr) → List Nat
  | [] => [0]
  | (k, v) :: fs => 1 :: (encStr k ++ encE v ++ encFL fs)

/-- Modelled from the spec: the statement half of `to_binary`
(spec §4.5), exhaustive over every statement variant, spans included. -/
def encS : Stmt → List Nat
  | .importS p sp => 0 :: (encStr p ++ encSpan sp)
  | .exportS p sp => 1 :: (encStr p ++ encSpan sp)
  | .moduleS p sp => 2 :: (encStr p ++ encSpan sp)
  | .letS n i sp => 3 :: (encStr n ++ encOE i ++ encSpan sp)
  | .constS n i sp => 4 :: (encStr n ++ encE i ++ encSpan sp)
  | .nativeConstS n sp => 5 :: (encStr n ++ encSpan sp)
  | .nativeFnS n ps sp => 6 :: (encStr n ++ encStrs ps ++ encSpan sp)
  | .fnS n ps b sp => 7 :: (encStr n ++ encStrs ps ++ encSL b ++ encSpan sp)
  | .ifS c t e sp => 8 :: (encE c ++ encSL t ++ encOSL e ++ encSpan sp)
  | .whileS c b sp => 9 :: (encE c ++ encSL b ++ encSpan sp)
  | .forS bd it b sp => 10 :: (encStr bd ++ encE it ++ encSL b ++ encSpan sp)
  | .breakS sp => 11 :: encSpan sp
  | .continueS sp => 12 :: encSpan sp
  | .returnS v sp => 13 :: (encOE v ++ encSpan sp)
  | .xreturnS v sp => 14 :: (encOE v ++ encSpan sp)
  | .throwS v sp => 15 :: (encE v ++ encSpan sp)
  | .tryCatchS t cs ca nc sp =>
    16 :: (encSL t ++ encCL cs ++ encCA ca ++ encOSL nc ++ encSpan sp)
  | .assignS t op v sp => 17 :: encAsgOpN op :: (encE t ++ encE v ++ encSpan sp)
  | .exprS e sp => 18 :: (encE e ++ encSpan sp)

/-- Statement-list encoding with per-element markers. -/
def encSL : List Stmt → List Nat
  | [] => [0]
  | s :: ss => 1 :: (encS s ++ encSL ss)

/-- Catch-clause-list encoding. -/
def encCL : List CatchClause → List Nat
  | [] => [0]
  | .mk tp b body :: cs => 1 :: (encStr tp ++ encStr b ++ encSL body ++ encCL cs)

/-- Optional-expression encoding. -/
def encOE : Option Expr → List Nat
  | none => [0]
  | some e => 1 :: encE e

/-- Optional-block encoding. -/
def encOSL : Option (List Stmt) → List Nat
  | none => [0]
  | some ss => 1 :: encSL ss

/-- Optional catch-all clause encoding. -/
def encCA : Option (String × List Stmt) → List Nat
  | none => [0]
  | some (b, ss) => 1 :: (encStr b ++ encSL ss)

end

/-! ### Binary codec: decoder -/

mutual

/-- Modelled from the spec: the expression half of `from_binary`
(spec §4.5). Fuel is structural; every recursive step consumes at least
one byte, so the input length bounds the recursion depth. -/
def decE : Nat → List Nat → Option (Expr × List Nat)
  | 0, _ => none
  | _ + 1, [] => none
  | fuel + 1, b :: bs =>
    match b with
    | 0 => do
      let (n, r1) ← decNat bs
      let (sp, r2) ← decSpan r1
      some (.intE n sp, r2)
    | 1 =>
      (match bs with
       | b2 :: bs2 => do
         let bv ← decBoolN b2
         let (sp, r1) ← decSpan bs2
         some (.boolE bv sp, r1)
       | [] => none)
    | 2 => do
      let (sp, r1) ← decSpan bs
      some (.nilE sp, r1)
    | 3 => do
      let (parts, r1) ← decPL fuel bs
      let (sp, r2) ← decSpan r1
      some (.strE parts sp, r2)
    | 4 => do
      let (s, r1) ← decStr bs
      let (sp, r2) ← decSpan r1
      some (.identE s sp, r2)
    | 5 =>
      (match bs with
       | u :: bs2 => do
         let op ← decUnOpN u
         let (e, r1) ← decE fuel bs2
         let (sp, r2) ← decSpan r1
         some (.unary op e sp, r2)
       | [] => none)
    | 6 =>
      (match bs with
       | u :: bs2 => do
         let op ← decBinOpN u
         let (l, r1) ← decE fuel bs2
         let (rr, r2) ← decE fuel r1
         let (sp, r3) ← decSpan r2
         some (.binary op l rr sp, r3)
       | [] => none)
    | 7 => do
      let (c, r1) ← decE fuel bs
      let (t, r2) ← decE fuel r1
      let (f, r3) ← decE fuel r2
      let (sp, r4) ← decSpan r3
      some (.ternary c t f sp, r4)
    | 8 => do
      let (e, r1) ← decE fuel bs
      let (sp, r2) ← decSpan r1
      some (.nonNilAssert e sp, r2)
    | 9 => do
      let (c, r1) ← decE fuel bs
      let (args, r2) ← decEL fuel r1
      let (sp, r3) ← decSpan r2
      some (.call c args sp, r3)
    | 10 => do
      let (t, r1) ← decE fuel bs
      let (i, r2) ← decE fuel r1
      let (sp, r3) ← decSpan r2
      some (.indexE t i sp, r3)
    | 11 => do
      let (t, r1) ← decE fuel bs
      let (n, r2) ← decStr r1
      let (sp, r3) ← decSpan r2
      some (.member t n sp, r3)
    | 12 => do
      let (es, r1) ← decEL fuel bs
      let (sp, r2) ← decSpan r1
      some (.arrayE es sp, r2)
    | 13 => do
      let (fs, r1) ← decFL fuel bs
      let (sp, r2) ← decSpan r1
      some (.compound fs sp, r2)
    | 14 => do
      let (fs, r1) ← decStrPairs bs
      let (sp, r2) ← decSpan r1
      some (.typeDef fs sp, r2)
    | 15 => do
      let (ps, r1) ← decStrs bs
      let (body, r2) ← decSL fuel r1
      let (sp, r3) ← decSpan r2
      some (.arrowFn ps body sp, r3)
    | _ => none
termination_by structural fuel => fuel

/-- String-literal segment-list decoding. -/
def decPL : Nat → List Nat → Option (List StrPart × List Nat)
  | 0, _ => none
  | _ + 1, [] => none
  | _ + 1, 0 :: bs => some ([], bs)
  | fuel + 1, 1 :: bs => do
    let (s, r1) ← decStr bs
    let (ps, r2) ← decPL fuel r1
    some (.lit s :: ps, r2)
  | fuel + 1, 2 :: bs => do
    let (e, r1) ← decE fuel bs
    let (ps, r2) ← decPL fuel r1
    some (.interp e :: ps, r2)
  | _ + 1, _ :: _ => none
termination_by structural fuel => fuel

/-- Expression-list decoding. -/
def decEL : Nat → List Nat → Option (List Expr × List Nat)
  | 0, _ => none
  | _ + 1, [] => none
  | _ + 1, 0 :: bs => some ([], bs)
  | fuel + 1, 1 :: bs => do
    let (e, r1) ← decE fuel bs
    let (es, r2) ← decEL fuel r1
    some (e :: es, r2)
  | _ + 1, _ :: _ => none
termination_by structural fuel => fuel

/-- Compound-field-list decoding. -/
def decFL : Nat → List Nat → Option (List (String × Expr) × List Nat)
  | 0, _ => none
  | _ + 1, [] => none
  | _ + 1, 0 :: bs => some ([], bs)
  | fuel + 1, 1 :: bs => do
    let (k, r1) ← decStr bs
    let (v, r2) ← decE fuel r1
    let (fs, r3) ← decFL fuel r2
    some ((k, v) :: fs, r3)
  | _ + 1, _ :: _ => none
termination_by structural fuel => fuel

/-- Modelled from the spec: the statement half of `from_binary`
(spec §4.5). -/
def decS : Nat → List Nat → Option (Stmt × List Nat)
  | 0, _ => none
  | _ + 1, [] => none
  | fuel + 1, b :: bs =>
    match b with
    | 0 => do
      let (p, r1) ← decStr bs
      let (sp, r2) ← decSpan r1
      some (.importS p sp, r2)
    | 1 => do
      let (p, r1) ← decStr bs
      let (sp, r2) ← decSpan r1
      some (.exportS p sp, r2)
    | 2 => do
      let (p, r1) ← decStr bs
      let (sp, r2) ← decSpan r1
      some (.moduleS p sp, r2)
    | 3 => do
      let (n, r1) ← decStr bs
      let (i, r2) ← decOE fuel r1
      let (sp, r3) ← decSpan r2
      some (.letS n i sp, r3)
    | 4 => do
      let (n, r1) ← decStr bs
      let (i, r2) ← decE fuel r1
      let (sp, r3) ← decSpan r2
      some (.constS n i sp, r3)
    | 5 => do
      let (n, r1) ← decStr bs
      let (sp, r2) ← decSpan r1
      some (.nativeConstS n sp, r2)
    | 6 => do
      let (n, r1) ← decStr bs
      let (ps, r2) ← decStrs r1
      let (sp, r3) ← decSpan r2
      some (.nativeFnS n ps sp, r3)
    | 7 => do
      let (n, r1) ← decStr bs
      let (ps, r2) ← decStrs r1
      let (body, r3) ← decSL fuel r2
      let (sp, r4) ← decSpan r3
      some (.fnS n ps body sp, r4)
    | 8 => do
      let (c, r1) ← decE fuel bs
      let (t, r2) ← decSL fuel r1
      let (e, r3) ← decOSL fuel r2
      let (sp, r4) ← decSpan r3
      some (.ifS c t e sp, r4)
    | 9 => do
      let (c, r1) ← decE fuel bs
      let (body, r2) ← decSL fuel r1
      let (sp, r3) ← decSpan r2
      some (.whileS c body sp, r3)
    | 10 => do
      let (bd, r1) ← decStr bs
      let (it, r2) ← decE fuel r1
      let (body, r3) ← decSL fuel r2
      let (sp, r4) ← decSpan r3
      some (.forS bd it body sp, r4)
    | 11 => do
      let (sp, r1) ← decSpan bs
      some (.breakS sp, r1)
    | 12 => do
      let (sp, r1) ← decSpan bs
      some (.continueS sp, r1)
    | 13 => do
      let (v, r1) ← decOE fuel bs
      let (sp, r2) ← decSpan r1
      some (.returnS v sp, r2)
    | 14 => do
      let (v, r1) ← decOE fuel bs
      let (sp, r2) ← decSpan r1
      some (.xreturnS v sp, r2)
    | 15 => do
      let (v, r1) ← decE fuel bs
      let (sp, r2) ← decSpan r1
      some (.throwS v sp, r2)
    | 16 => do
      let (t, r1) ← decSL fuel bs
      let (cs, r2) ← decCL fuel r1
      let (ca, r3) ← decCA fuel r2
      let (nc, r4) ← decOSL fuel r3
      let (sp, r5) ← decSpan r4
      some (.tryCatchS t cs ca nc sp, r5)
    | 17 =>
      (match bs with
       | u :: bs2 => do
         let op ← decAsgOpN u
         let (t, r1) ← decE fuel bs2
         let (v, r2) ← decE fuel r1
         let (sp, r3) ← decSpan r2
         some (.assignS t op v sp, r3)
       | [] => none)
    | 18 => do
      let (e, r1) ← decE fuel bs
      let (sp, r2) ← decSpan r1
      some (.exprS e sp, r2)
    | _ => none
termination_by structural fuel => fuel

/-- Statement-list decoding. -/
def decSL : Nat → List Nat → Option (List Stmt × List Nat)
  | 0, _ => none
  | _ + 1, [] => none
  | _ + 1, 0 :: bs => some ([], bs)
  | fuel + 1, 1 :: bs => do
    let (s, r1) ← decS fuel bs
    let (ss, r2) ← decSL fuel r1
    some (s :: ss, r2)
  | _ + 1, _ :: _ => none
termination_by structural fuel => fuel

/-- Catch-clause-list decoding. -/
def decCL : Nat → List Nat → Option (List CatchClause × List Nat)
  | 0, _ => none
  | _ + 1, [] => none
  | _ + 1, 0 :: bs => some ([], bs)
  | fuel + 1, 1 :: bs => do
    let (tp, r1) ← decStr bs
    let (b, r2) ← decStr r1
    let (body, r3) ← decSL fuel r2
    let (cs, r4) ← decCL fuel r3
    some (CatchClause.mk tp b body :: cs, r4)
  | _ + 1, _ :: _ => none
termination_by structural fuel => fuel

/-- Optional-expression decoding. -/
def decOE : Nat → List Nat → Option (Option Expr × List Nat)
  | 0, _ => none
  | _ + 1, [] => none
  | _ + 1, 0 :: bs => some (none, bs)
  | fuel + 1, 1 :: bs => do
    let (e, r1) ← decE fuel bs
    some (some e, r1)
  | _ + 1, _ :: _ => none
termination_by structural fuel => fuel

/-- Optional-block decoding. -/
def decOSL : Nat → List Nat → Option (Option (List Stmt) × List Nat)
  | 0, _ => none
  | _ + 1, [] => none
  | _ + 1, 0 :: bs => some (none, bs)
  | fuel + 1, 1 :: bs => do
    let (ss, r1) ← decSL fuel bs
    some (some ss, r1)
  | _ + 1, _ :: _ => none
termination_by structural fuel => fuel

/-- Optional catch-all decoding. -/
def decCA : Nat → List Nat → Option (Option (String × List Stmt) × List Nat)
  | 0, _ => none
  | _ + 1, [] => none
  | _ + 1, 0 :: bs => some (none, bs)
  | fuel + 1, 1 :: bs => do
    let (b, r1) ← decStr bs
    let (ss, r2) ← decSL fuel r1
    some (some (b, ss), r2)
  | _ + 1, _ :: _ => none
termination_by structural fuel => fuel

end

/-- Modelled from the spec: `to_binary(ast) -> byte buffer` (spec §4.5)
over a whole compilation unit (the parsed statement sequence). -/
def to_binary (stmts : List Stmt) : List Nat :=
  encSL stmts

/-- Modelled from the spec: `from_binary(bytes) -> ast | error`
(spec §4.5); fails on malformed or truncated input, and on trailing
bytes. The input length bounds the decoder's recursion depth. -/
def from_binary (bytes : List Nat) : Option (List Stmt) :=
  match decSL bytes.length bytes with
  | some (stmts, []) => some stmts
  | _ => none

/-! ### Binary codec: round-trip -/

set_option maxHeartbeats 1600000

mutual

/-- Decoding inverts encoding for expressions, given fuel at least the
encoding's length. -/
theorem decE_enc (fuel : Nat) (e : Expr) (h : (encE e).length ≤ fuel) :
    ∀ r : List Nat, decE fuel (encE e ++ r) = some (e, r) := by
  intro r
  match fuel with
  | 0 => exfalso; cases e <;> simp [encE] at h
  | f + 1 =>
    cases e with
    | intE n sp => simp [encE, decE, List.append_assoc, decNat_enc, decSpan_enc]
    | boolE b sp => simp [encE, decE, List.append_assoc, decBoolN_enc, decSpan_enc]
    | nilE sp => simp [encE, decE, List.append_assoc, decSpan_enc]
    | strE parts sp =>
      have h1 : (encPL parts).length ≤ f := by
        simp only [encE, List.length_cons, List.length_append] at h; omega
      simp [encE, decE, List.append_assoc, decPL_enc f parts h1, decSpan_enc]
    | identE s sp => simp [encE, decE, List.append_assoc, decStr_enc, decSpan_enc]
    | unary op e1 sp =>
      have h1 : (encE e1).length ≤ f := by
        simp only [encE, List.length_cons, List.length_append] at h; omega
      simp [encE, decE, List.append_assoc, decUnOpN_enc, decE_enc f e1 h1, decSpan_enc]
    | binary op l rr sp =>
      have h1 : (encE l).length ≤ f := by
        simp only [encE, List.length_cons, List.length_append] at h; omega
      have h2 : (encE rr).length ≤ f := by
        simp only [encE, List.length_cons, List.length_append] at h; omega
      simp [encE, decE, List.append_assoc, decBinOpN_enc, decE_enc f l h1,
        decE_enc f rr h2, decSpan_enc]
    | ternary c t ff sp =>
      have h1 : (encE c).length ≤ f := by
        simp only [encE, List.length_cons, List.length_append] at h; omega
      have h2 : (encE t).length ≤ f := by
        simp only [encE, List.length_cons, List.length_append] at h; omega
      have h3 : (encE ff).length ≤ f := by
        simp only [encE, List.length_cons, List.length_append] at h; omega
      simp [encE, decE, List.append_assoc, decE_enc f c h1, decE_enc f t h2,
        decE_enc f ff h3, decSpan_enc]
    | nonNilAssert e1 sp =>
      have h1 : (encE e1).length ≤ f := by
        simp only [encE, List.length_cons, List.length_append] at h; omega
      simp [encE, decE, List.append_assoc, decE_enc f e1 h1, decSpan_enc]
    | call c args sp =>
      have h1 : (encE c).length ≤ f := by
        simp only [encE, List.length_cons, List.length_append] at h; omega
      have h2 : (encEL args).length ≤ f := by
        simp only [encE, List.length_cons, List.length_append] at h; omega
      simp [encE, decE, List.append_assoc, decE_enc f c h1, decEL_enc f args h2,
        decSpan_enc]
    | indexE t i sp =>
      have h1 : (encE t).length ≤ f := by
        simp only [encE, List.length_cons, List.length_append] at h; omega
      have h2 : (encE i).length ≤ f := by
        simp only [encE, List.length_cons, List.length_append] at h; omega
      simp [encE, decE, List.append_assoc, decE_enc f t h1, decE_enc f i h2,
        decSpan_enc]
    | member t n sp =>
      have h1 : (encE t).length ≤ f := by
        simp only [encE, List.length_cons, List.length_append] at h; omega
      simp [encE, decE, List.append_assoc, decE_enc f t h1, decStr_enc, decSpan_enc]
    | arrayE es sp =>
      have h1 : (encEL es).length ≤ f := by
        simp only [encE, List.length_cons, List.length_append] at h; omega
      simp [encE, decE, List.append_assoc, decEL_enc f es h1, decSpan_enc]
    | compound fs sp =>
      have h1 : (encFL fs).length ≤ f := by
        simp only [encE, List.length_cons, List.length_append] at h; omega
      simp [encE, decE, List.append_assoc, decFL_enc f fs h1, decSpan_enc]
    | typeDef fs sp =>
      simp [encE, decE, List.append_assoc, decStrPairs_enc, decSpan_enc]
    | arrowFn ps body sp =>
      have h1 : (encSL body).length ≤ f := by
        simp only [encE, List.length_cons, List.length_append] at h; omega
      simp [encE, decE, List.append_assoc, decStrs_enc, decSL_enc f body h1,
        decSpan_enc]
termination_by fuel

/-- Decoding inverts encoding for string-literal segment lists. -/
theorem decPL_enc (fuel : Nat) (ps : List StrPart) (h : (encPL ps).length ≤ fuel) :
    ∀ r : List Nat, decPL fuel (encPL ps ++ r) = some (ps, r) := by
  intro r
  match fuel with
  | 0 =>
    exfalso
    cases ps with
    | nil => simp [encPL] at h
    | cons p ps => cases p <;> simp [encPL] at h
  | f + 1 =>
    cases ps with
    | nil => simp [encPL, decPL]
    | cons p ps =>
      cases p with
      | lit s =>
        have h2 : (encPL ps).length ≤ f := by
          simp only [encPL, List.length_cons, List.length_append] at h; omega
        simp [encPL, decPL, List.append_assoc, decStr_enc, decPL_enc f ps h2]
      | interp e =>
        have h1 : (encE e).length ≤ f := by
          simp only [encPL, List.length_cons, List.length_append] at h; omega
        have h2 : (encPL ps).length ≤ f := by
          simp only [encPL, List.length_cons, List.length_append] at h; omega
        simp [encPL, decPL, List.append_assoc, decE_enc f e h1, decPL_enc f ps h2]
termination_by fuel

/-- Decoding inverts encoding for expression lists. -/
theorem decEL_enc (fuel : Nat) (es : List Expr) (h : (encEL es).length ≤ fuel) :
    ∀ r : List Nat, decEL fuel (encEL es ++ r) = some (es, r) := by
  intro r
  match fuel with
  | 0 => exfalso; cases es <;> simp [encEL] at h
  | f + 1 =>
    cases es with
    | nil => simp [encEL, decEL]
    | cons e es =>
      have h1 : (encE e).length ≤ f := by
        simp only [encEL, List.length_cons, List.length_append] at h; omega
      have h2 : (encEL es).length ≤ f := by
        simp only [encEL, List.length_cons, List.length_append] at h; omega
      simp [encEL, decEL, List.append_assoc, decE_enc f e h1, decEL_enc f es h2]
termination_by fuel

/-- Decoding inverts encoding for compound-field lists. -/
theorem decFL_enc (fuel : Nat) (fs : List (String × Expr))
    (h : (encFL fs).length ≤ fuel) :
    ∀ r : List Nat, decFL fuel (encFL fs ++ r) = some (fs, r) := by
  intro r
  match fuel with
  | 0 => exfalso; cases fs <;> simp [encFL] at h
  | f + 1 =>
    cases fs with
    | nil => simp [encFL, decFL]
    | cons kv fs =>
      cases kv with
      | mk k v =>
        have h1 : (encE v).length ≤ f := by
          simp only [encFL, List.length_cons, List.length_append] at h; omega
        have h2 : (encFL fs).length ≤ f := by
          simp only [encFL, List.length_cons, List.length_append] at h; omega
        simp [encFL, decFL, List.append_assoc, decStr_enc, decE_enc f v h1,
          decFL_enc f fs h2]
termination_by fuel

/-- Decoding inverts encoding for statements. -/
theorem decS_enc (fuel : Nat) (s : Stmt) (h : (encS s).length ≤ fuel) :
    ∀ r : List Nat, decS fuel (encS s ++ r) = some (s, r) := by
  intro r
  match fuel with
  | 0 => exfalso; cases s <;> simp [encS] at h
  | f + 1 =>
    cases s with
    | importS p sp => simp [encS, decS, List.append_assoc, decStr_enc, decSpan_enc]
    | exportS p sp => simp [encS, decS, List.append_assoc, decStr_enc, decSpan_enc]
    | moduleS p sp => simp [encS, decS, List.append_assoc, decStr_enc, decSpan_enc]
    | letS n i sp =>
      have h1 : (encOE i).length ≤ f := by
        simp only [encS, List.length_cons, List.length_append] at h; omega
      simp [encS, decS, List.append_assoc, decStr_enc, decOE_enc f i h1, decSpan_enc]
    | constS n i sp =>
      have h1 : (encE i).length ≤ f := by
        simp only [encS, List.length_cons, List.length_append] at h; omega
      simp [encS, decS, List.append_assoc, decStr_enc, decE_enc f i h1, decSpan_enc]
    | nativeConstS n sp =>
      simp [encS, decS, List.append_assoc, decStr_enc, decSpan_enc]
    | nativeFnS n ps sp =>
      simp [encS, decS, List.append_assoc, decStr_enc, decStrs_enc, decSpan_enc]
    | fnS n ps b sp =>
      have h1 : (encSL b).length ≤ f := by
        simp only [encS, List.length_cons, List.length_append] at h; omega
      simp [encS, decS, List.append_assoc, decStr_enc, decStrs_enc,
        decSL_enc f b h1, decSpan_enc]
    | ifS c t e sp =>
      have h1 : (encE c).length ≤ f := by
        simp only [encS, List.length_cons, List.length_append] at h; omega
      have h2 : (encSL t).length ≤ f := by
        simp only [encS, List.length_cons, List.length_append] at h; omega
      have h3 : (encOSL e).length ≤ f := by
        simp only [encS, List.length_cons, List.length_append] at h; omega
      simp [encS, decS, List.append_assoc, decE_enc f c h1, decSL_enc f t h2,
        decOSL_enc f e h3, decSpan_enc]
    | whileS c b sp =>
      have h1 : (encE c).length ≤ f := by
        simp only [encS, List.length_cons, List.length_append] at h; omega
      have h2 : (encSL b).length ≤ f := by
        simp only [encS, List.length_cons, List.length_append] at h; omega
      simp [encS, decS, List.append_assoc, decE_enc f c h1, decSL_enc f b h2,
        decSpan_enc]
    | forS bd it b sp =>
      have h1 : (encE it).length ≤ f := by
        simp only [encS, List.length_cons, List.length_append] at h; omega
      have h2 : (encSL b).length ≤ f := by
        simp only [encS, List.length_cons, List.length_append] at h; omega
      simp [encS, decS, List.append_assoc, decStr_enc, decE_enc f it h1,
        decSL_enc f b h2, decSpan_enc]
    | breakS sp => simp [encS, decS, List.append_assoc, decSpan_enc]
    | continueS sp => simp [encS, decS, List.append_assoc, decSpan_enc]
    | returnS v sp =>
      have h1 : (encOE v).length ≤ f := by
        simp only [encS, List.length_cons, List.length_append] at h; omega
      simp [encS, decS, List.append_assoc, decOE_enc f v h1, decSpan_enc]
    | xreturnS v sp =>
      have h1 : (encOE v).length ≤ f := by
        simp only [encS, List.length_cons, List.length_append] at h; omega
      simp [encS, decS, List.append_assoc, decOE_enc f v h1, decSpan_enc]
    | throwS v sp =>
      have h1 : (encE v).length ≤ f := by
        simp only [encS, List.length_cons, List.length_append] at h; omega
      simp [encS, decS, List.append_assoc, decE_enc f v h1, decSpan_enc]
    | tryCatchS t cs ca nc sp =>
      have h1 : (encSL t).length ≤ f := by
        simp only [encS, List.length_cons, List.length_append] at h; omega
      have h2 : (encCL cs).length ≤ f := by
        simp only [encS, List.length_cons, List.length_append] at h; omega
      have h3 : (encCA ca).length ≤ f := by
        simp only [encS, List.length_cons, List.length_append] at h; omega
      have h4 : (encOSL nc).length ≤ f := by
        simp only [encS, List.length_cons, List.length_append] at h; omega
      simp [encS, decS, List.append_assoc, decSL_enc f t h1, decCL_enc f cs h2,
        decCA_enc f ca h3, decOSL_enc f nc h4, decSpan_enc]
    | assignS t op v sp =>
      have h1 : (encE t).length ≤ f := by
        simp only [encS, List.length_cons, List.length_append] at h; omega
      have h2 : (encE v).length ≤ f := by
        simp only [encS, List.length_cons, List.length_append] at h; omega
      simp [encS, decS, List.append_assoc, decAsgOpN_enc, decE_enc f t h1,
        decE_enc f v h2, decSpan_enc]
    | exprS e sp =>
      have h1 : (encE e).length ≤ f := by
        simp only [encS, List.length_cons, List.length_append] at h; omega
      simp [encS, decS, List.append_assoc, decE_enc f e h1, decSpan_enc]
termination_by fuel

/-- Decoding inverts encoding for statement lists. -/
theorem decSL_enc (fuel : Nat) (ss : List Stmt) (h : (encSL ss).length ≤ fuel) :
    ∀ r : List Nat, decSL fuel (encSL ss ++ r) = some (ss, r) := by
  intro r
  match fuel with
  | 0 => exfalso; cases ss <;> simp [encSL] at h
  | f + 1 =>
    cases ss with
    | nil => simp [encSL, decSL]
    | cons s ss =>
      have h1 : (encS s).length ≤ f := by
        simp only [encSL, List.length_cons, List.length_append] at h; omega
      have h2 : (encSL ss).length ≤ f := by
        simp only [encSL, List.length_cons, List.length_append] at h; omega
      simp [encSL, decSL, List.append_assoc, decS_enc f s h1, decSL_enc f ss h2]
termination_by fuel

/-- Decoding inverts encoding for catch-clause lists. -/
theorem decCL_enc (fuel : Nat) (cs : List CatchClause)
    (h : (encCL cs).length ≤ fuel) :
    ∀ r : List Nat, decCL fuel (encCL cs ++ r) = some (cs, r) := by
  intro r
  match fuel with
  | 0 =>
    exfalso
    cases cs with
    | nil => simp [encCL] at h
    | cons c cs => cases c; simp [encCL] at h
  | f + 1 =>
    cases cs with
    | nil => simp [encCL, decCL]
    | cons c cs =>
      cases c with
      | mk tp b body =>
        have h1 : (encSL body).length ≤ f := by
          simp only [encCL, List.length_cons, List.length_append] at h; omega
        have h2 : (encCL cs).length ≤ f := by
          simp only [encCL, List.length_cons, List.length_append] at h; omega
        simp [encCL, decCL, List.append_assoc, decStr_enc, decSL_enc f body h1,
          decCL_enc f cs h2]
termination_by fuel

/-- Decoding inverts encoding for optional expressions. -/
theorem decOE_enc (fuel : Nat) (o : Option Expr) (h : (encOE o).length ≤ fuel) :
    ∀ r : List Nat, decOE fuel (encOE o ++ r) = some (o, r) := by
  intro r
  match fuel with
  | 0 => exfalso; cases o <;> simp [encOE] at h
  | f + 1 =>
    cases o with
    | none => simp [encOE, decOE]
    | some e =>
      have h1 : (encE e).length ≤ f := by
        simp only [encOE, List.length_cons, List.length_append] at h; omega
      simp [encOE, decOE, List.append_assoc, decE_enc f e h1]
termination_by fuel

/-- Decoding inverts encoding for optional blocks. -/
theorem decOSL_enc (fuel : Nat) (o : Option (List Stmt))
    (h : (encOSL o).length ≤ fuel) :
    ∀ r : List Nat, decOSL fuel (encOSL o ++ r) = some (o, r) := by
  intro r
  match fuel with
  | 0 => exfalso; cases o <;> simp [encOSL] at h
  | f + 1 =>
    cases o with
    | none => simp [encOSL, decOSL]
    | some ss =>
      have h1 : (encSL ss).length ≤ f := by
        simp only [encOSL, List.length_cons, List.length_append] at h; omega
      simp [encOSL, decOSL, List.append_assoc, decSL_enc f ss h1]
termination_by fuel

/-- Decoding inverts encoding for the optional catch-all clause. -/
theorem decCA_enc (fuel : Nat) (o : Option (String × List Stmt))
    (h : (encCA o).length ≤ fuel) :
    ∀ r : List Nat, decCA fuel (encCA o ++ r) = some (o, r) := by
  intro r
  match fuel with
  | 0 =>
    exfalso
    cases o with
    | none => simp [encCA] at h
    | some p => cases p; simp [encCA] at h
  | f + 1 =>
    cases o with
    | none => simp [encCA, decCA]
    | some p =>
      cases p with
      | mk b ss =>
        have h1 : (encSL ss).length ≤ f := by
          simp only [encCA, List.length_cons, List.length_append] at h; omega
        simp [encCA, decCA, List.append_assoc, decStr_enc, decSL_enc f ss h1]
termination_by fuel

end

/-! ### Claim theorems -/

/-- C1: for every AST value `x` of a whole compilation unit (in
particular every one produced by the parser), decoding the encoding is
the identity: `from_binary (to_binary x)` succeeds and reconstructs an
AST equal to `x` in both structure and spans (spans are part of every
node, so propositional equality covers them). -/
theorem claim_C1 (x : List Stmt) : from_binary (to_binary x) = some x := by
  have h := decSL_enc (encSL x).length x (Nat.le_refl _) []
  rw [List.append_nil] at h
  simp [from_binary, to_binary, h]

/-- C2: `parse_expression "1234 + 16 ** 12 / 13 == 24"` succeeds and
groups operators as `((1234 + ((16 ** 12) / 13)) == 24)`: `**` binds
tighter than `/`, which binds tighter than `+`, which binds tighter
than `==`. -/
theorem claim_C2 : parse_expression "1234 + 16 ** 12 / 13 == 24" =
    .ok (.binary .eq
      (.binary .add (.intE 1234 (0, 4))
        (.binary .div
          (.binary .pow (.intE 16 (7, 9)) (.intE 12 (13, 15)) (7, 15))
          (.intE 13 (18, 20)) (7, 20))
        (0, 20))
      (.intE 24 (24, 26)) (0, 26)) := by
  rfl

/-- C3: `parse_expression "!true & -3 ** 4"` succeeds and groups as
`((!true) & ((-3) ** 4))`: unary `!` and `-` bind tighter than `**`,
which binds tighter than `&`. -/
theorem claim_C3 : parse_expression "!true & -3 ** 4" =
    .ok (.binary .band
      (.unary .lnot (.boolE true (1, 5)) (0, 5))
      (.binary .pow (.unary .neg (.intE 3 (9, 10)) (8, 10))
        (.intE 4 (14, 15)) (8, 15))
      (0, 15)) := by
  rfl

/-- C4: `parse_expression "val(a"` (a dangling unterminated call)
returns a value-level parse error of the unexpected-end-of-input class.
`parse_expression` is a total Lean function, so termination (no panic,
no loop, no blocking) holds by construction. -/
theorem claim_C4 : parse_expression "val(a" =
    .error ⟨.unexpectedEof, (0, 0)⟩ := by
  rfl

/-- C5: `parse_statement "native let a;"` fails with the parser's
dedicated native-let error (a parse-time failure, not a validation
diagnostic), while natives declaring a constant or a function parse:
natives may only declare constants or functions, never a mutable let
binding. -/
theorem claim_C5 :
    parse_statement "native let a;" = .error ⟨.nativeLetE, (7, 10)⟩ ∧
    parse_statement "native const a;" = .ok (.nativeConstS "a" (0, 14)) ∧
    parse_statement "native fn pow(a, b)" =
      .ok (.nativeFnS "pow" ["a", "b"] (0, 19)) := by
  exact ⟨rfl, rfl, rfl⟩

/-- The token form of a parsed `try { } catch * as y { }` header, used to
state that nothing but a nil-catch clause may follow a wildcard clause. -/
def tryWildToks : Toks :=
  [(.kwTry, (0, 3)), (.lbrace, (4, 5)), (.rbrace, (6, 7)),
   (.kwCatch, (8, 13)), (.star, (14, 15)), (.ident "as", (16, 18)),
   (.ident "y", (19, 20)), (.lbrace, (21, 22)), (.rbrace, (23, 24))]

/-- The token form of a parsed `try { } catch? { }` header, used to state
that no clause may follow a nil-catch clause. -/
def tryNilToks : Toks :=
  [(.kwTry, (0, 3)), (.lbrace, (4, 5)), (.rbrace, (6, 7)),
   (.kwCatch, (8, 13)), (.question, (13, 14)), (.lbrace, (15, 16)),
   (.rbrace, (17, 18))]

/-- C6: catch clauses are ordered typed → wildcard → nil-catch:
`try { } catch IoError as io { } catch * as y { } catch? { }` parses,
while (for every continuation of the token stream) a typed clause after
the wildcard, a second wildcard after the wildcard, or any clause after
the nil-catch is a parse-time ordering error. -/
theorem claim_C6 :
    parse_statement "try { } catch IoError as io { } catch * as y { } catch? { }" =
      .ok (.tryCatchS [] [.mk "IoError" "io" []] (some ("y", [])) (some [])
        (0, 59)) ∧
    (∀ (name : String) (sp2 : Span) (ts : Toks),
      pStmt 500 (tryWildToks ++ (.kwCatch, (25, 30)) :: (.ident name, sp2) :: ts) =
        .error ⟨.catchOrderE, (25, 30)⟩) ∧
    (∀ (sp2 : Span) (ts : Toks),
      pStmt 500 (tryWildToks ++ (.kwCatch, (25, 30)) :: (.star, sp2) :: ts) =
        .error ⟨.catchOrderE, (25, 30)⟩) ∧
    (∀ ts : Toks,
      pStmt 500 (tryNilToks ++ (.kwCatch, (19, 24)) :: ts) =
        .error ⟨.catchOrderE, (19, 24)⟩) := by
  exact ⟨rfl, fun name sp2 ts => rfl, fun sp2 ts => rfl, fun ts => rfl⟩

/-- C7: for the block `const abc = false` followed by `abc = true`, the
parse-then-validate pipeline reports exactly one diagnostic, of the
constant-reassignment kind, positioned at the assignment span `(18, 28)`,
whose labels reference both the assignment span `(18, 28)` and the
original const declaration span `(0, 17)` (the spans carried by the two
statements of the parsed block). -/
theorem claim_C7 : run_pipeline "const abc = false\nabc = true" =
    .ok ([.constS "abc" (.boolE false (12, 17)) (0, 17),
          .assignS (.identE "abc" (18, 21)) .set (.boolE true (24, 28)) (18, 28)],
      [⟨.constReassign, (18, 28),
        [((18, 28), "cannot reassign constant"),
         ((0, 17), "constant declared here")]⟩]) := by
  rfl

/-- C8: a function body using the identifier `undefined` with no
declaration in any enclosing scope yields exactly one diagnostic, of the
undefined-reference kind, at that identifier's span `(25, 34)` (the span
carried by the parsed reference); and validation collects errors across
the whole AST rather than short-circuiting: a unit with both an
undefined reference and a later constant reassignment reports both
diagnostics in one run. -/
theorem claim_C8 :
    run_pipeline "fn hello(name) { let x = undefined }" =
      .ok ([.fnS "hello" ["name"]
            [.letS "x" (some (.identE "undefined" (25, 34))) (17, 34)] (0, 36)],
        [⟨.undefinedRef, (25, 34), [((25, 34), "undefined reference")]⟩]) ∧
    run_pipeline "const abc = false\nfn hello(name) { let x = undefined }\nabc = true" =
      .ok ([.constS "abc" (.boolE false (12, 17)) (0, 17),
            .fnS "hello" ["name"]
              [.letS "x" (some (.identE "undefined" (43, 52))) (35, 52)] (18, 54),
            .assignS (.identE "abc" (55, 58)) .set (.boolE true (61, 65)) (55, 65)],
        [⟨.undefinedRef, (43, 52), [((43, 52), "undefined reference")]⟩,
         ⟨.constReassign, (55, 65),
          [((55, 65), "cannot reassign constant"),
           ((0, 17), "constant declared here")]⟩]) := by
  exact ⟨rfl, rfl⟩

/-- C9: a trailing semicolon after a statement is optional at
`parse_statement`, for every statement form of the grammar: each of the
nineteen forms (import, export, module, let, const, native const,
native fn, fn, if, while, for, break, continue, return, xreturn, throw,
try/catch, assignment, expression statement) parses with a trailing `;`
to the identical statement it parses to without one, and that statement
is the expected kind. -/
theorem claim_C9 :
    (parse_statement "import std.io;" = parse_statement "import std.io" ∧
      parse_statement "import std.io" = .ok (.importS "std.io" (0, 13))) ∧
    (parse_statement "export core;" = parse_statement "export core" ∧
      parse_statement "export core" = .ok (.exportS "core" (0, 11))) ∧
    (parse_statement "module m;" = parse_statement "module m" ∧
      parse_statement "module m" = .ok (.moduleS "m" (0, 8))) ∧
    (parse_statement "let a = 1;" = parse_statement "let a = 1" ∧
      parse_statement "let a = 1" =
        .ok (.letS "a" (some (.intE 1 (8, 9))) (0, 9))) ∧
    (parse_statement "const a = 0xFFAAFF;" = parse_statement "const a = 0xFFAAFF" ∧
      parse_statement "const a = 0xFFAAFF" =
        .ok (.constS "a" (.intE 16755455 (10, 18)) (0, 18))) ∧
    (parse_statement "native const a;" = parse_statement "native const a" ∧
      parse_statement "native const a" = .ok (.nativeConstS "a" (0, 14))) ∧
    (parse_statement "native fn pow(a, b);" = parse_statement "native fn pow(a, b)" ∧
      parse_statement "native fn pow(a, b)" =
        .ok (.nativeFnS "pow" ["a", "b"] (0, 19))) ∧
    (parse_statement "fn empty() {};" = parse_statement "fn empty() {}" ∧
      parse_statement "fn empty() {}" = .ok (.fnS "empty" [] [] (0, 13))) ∧
    (parse_statement "if true { };" = parse_statement "if true { }" ∧
      parse_statement "if true { }" =
        .ok (.ifS (.boolE true (3, 7)) [] none (0, 11))) ∧
    (parse_statement "while true { };" = parse_statement "while true { }" ∧
      parse_statement "while true { }" =
        .ok (.whileS (.boolE true (6, 10)) [] (0, 14))) ∧
    (parse_statement "for i in xs { };" = parse_statement "for i in xs { }" ∧
      parse_statement "for i in xs { }" =
        .ok (.forS "i" (.identE "xs" (9, 11)) [] (0, 15))) ∧
    (parse_statement "break;" = parse_statement "break" ∧
      parse_statement "break" = .ok (.breakS (0, 5))) ∧
    (parse_statement "continue;" = parse_statement "continue" ∧
      parse_statement "continue" = .ok (.continueS (0, 8))) ∧
    (parse_statement "return;" = parse_statement "return" ∧
      parse_statement "return" = .ok (.returnS none (0, 6))) ∧
    (parse_statement "xreturn 123;" = parse_statement "xreturn 123" ∧
      parse_statement "xreturn 123" =
        .ok (.xreturnS (some (.intE 123 (8, 11))) (0, 11))) ∧
    (parse_statement "throw nil;" = parse_statement "throw nil" ∧
      parse_statement "throw nil" = .ok (.throwS (.nilE (6, 9)) (0, 9))) ∧
    (parse_statement "try { } catch? { };" = parse_statement "try { } catch? { }" ∧
      parse_statement "try { } catch? { }" =
        .ok (.tryCatchS [] [] none (some []) (0, 18))) ∧
    (parse_statement "a = false;" = parse_statement "a = false" ∧
      parse_statement "a = false" =
        .ok (.assignS (.identE "a" (0, 1)) .set (.boolE false (4, 9)) (0, 9))) ∧
    (parse_statement "f(1);" = parse_statement "f(1)" ∧
      parse_statement "f(1)" =
        .ok (.exprS (.call (.identE "f" (0, 1)) [.intE 1 (2, 3)] (0, 4)) (0, 4))) := by
  exact ⟨⟨rfl, rfl⟩, ⟨rfl, rfl⟩, ⟨rfl, rfl⟩, ⟨rfl, rfl⟩, ⟨rfl, rfl⟩,
    ⟨rfl, rfl⟩, ⟨rfl, rfl⟩, ⟨rfl, rfl⟩, ⟨rfl, rfl⟩, ⟨rfl, rfl⟩,
    ⟨rfl, rfl⟩, ⟨rfl, rfl⟩, ⟨rfl, rfl⟩, ⟨rfl, rfl⟩, ⟨rfl, rfl⟩,
    ⟨rfl, rfl⟩, ⟨rfl, rfl⟩, ⟨rfl, rfl⟩, ⟨rfl, rfl⟩⟩

/-- C10: `parse_statement` accepts a for-loop whose binding position is a
string literal rather than an identifier: `for 'char' in 'chars' { }`
parses successfully, binding the string `char`. -/
theorem claim_C10 : parse_statement "for 'char' in 'chars' { }" =
    .ok (.forS "char" (.strE [.lit "chars"] (14, 21)) [] (0, 25)) := by
  rfl

end Conduct
